import Mathlib

/-!
Shallow embedding of the Published-Collab Duplicator of AppFlowy-Cloud
(`src/biz/workspace/publish_dup.rs`), together with proofs of the
specification claims about it.

Modelling conventions:

* UUID strings are plain `String`s.  `uuid::Uuid::new_v4()` is modelled by the
  injective supply `freshId` driven by the `gen` counter of the duplication
  state, drawn in exactly the order the source draws fresh ids.  UUID parsing
  of input ids is assumed to succeed (a parse failure is a bad-request path
  orthogonal to the claims verified here).
* `serde_json::Value` is the inductive `Json`; Rust `HashMap`s are association
  lists (`lookupA` / `insertA` / `updateA`) with HashMap `insert` semantics
  (replace if present, append otherwise).  Iteration order of a `HashMap` is
  unspecified in Rust; the model fixes it to the list order.
* CRDT encode/decode round-trips are the identity on the typed payloads: a
  published blob is either an already-parsed document (`PublishedBlob.docBlob`)
  or an already-parsed `PublishDatabaseData` (`PublishedBlob.dbBlob`); decoding
  one as the other kind fails exactly as the source's decoder would.
* The SQL transaction is the `trace` buffer of the duplication state: inserts
  and broadcasts are recorded as events, and the destination store is changed
  only when the top-level run commits (mirroring sqlx semantics: a transaction
  dropped on an error path is rolled back).
* Struct fields the duplicator never reads or writes (block ids, parents,
  children maps, row heights beyond the `id`, ...) are omitted or kept opaque.
-/

/-- Collab type tag, from `collab_entity::CollabType` (the variants matched by
the duplicator; `Unknown` stands for any remaining variant, all of which hit
the catch-all arm of `deep_copy_txn`). -/
inductive CollabType where
  | Document
  | Database
  | DatabaseRow
  | Folder
  | WorkspaceDatabase
  | Unknown
deriving DecidableEq, Repr

/-- Folder view layout, from `collab_folder::ViewLayout`. -/
inductive ViewLayout where
  | Document
  | Grid
  | Board
  | Calendar
deriving DecidableEq, Repr

/-- Database view layout, from `collab_database::views::DatabaseLayout`. -/
inductive DatabaseLayout where
  | Grid
  | Board
  | Calendar
deriving DecidableEq, Repr

/-- The source's `db_layout_to_view_layout`. -/
def db_layout_to_view_layout : DatabaseLayout → ViewLayout
  | DatabaseLayout.Grid => ViewLayout.Grid
  | DatabaseLayout.Board => ViewLayout.Board
  | DatabaseLayout.Calendar => ViewLayout.Calendar

/-- A JSON value (`serde_json::Value`); numbers are integral since the
duplicator never touches numeric payloads. -/
inductive Json where
  | null
  | bool (b : Bool)
  | num (n : Int)
  | str (s : String)
  | arr (elems : List Json)
  | obj (fields : List (String × Json))
deriving Repr

/-- First association for a key, as `HashMap::get`. -/
def lookupA {α : Type} : List (String × α) → String → Option α
  | [], _ => none
  | (k', v) :: rest, k => if k = k' then some v else lookupA rest k

/-- `HashMap::insert`: replace the association if the key is present, append
otherwise. -/
def insertA {α : Type} : List (String × α) → String → α → List (String × α)
  | [], k, v => [(k, v)]
  | (k', v') :: rest, k, v =>
    if k = k' then (k, v) :: rest else (k', v') :: insertA rest k v

/-- Write through an existing association only (the effect of writing through a
`get_mut`); a missing key leaves the list unchanged. -/
def updateA {α : Type} : List (String × α) → String → α → List (String × α)
  | [], _, _ => []
  | (k', v') :: rest, k, v =>
    if k = k' then (k, v) :: rest else (k', v') :: updateA rest k v

/-- `serde_json::Value::get` on an object. -/
def Json.get : Json → String → Option Json
  | Json.obj fields, k => lookupA fields k
  | _, _ => none

/-- Write a key of a JSON object through a previously obtained `get_mut`
reference (only existing keys are ever written this way). -/
def Json.setKey : Json → String → Json → Json
  | Json.obj fields, k, v => Json.obj (updateA fields k v)
  | j, _, _ => j

/-- `serde_json::Value::as_str`. -/
def Json.asStr : Json → Option String
  | Json.str s => some s
  | _ => none

/-- `serde_json::json!` applied to an `&Option<String>`: `None` serialises to
JSON `null`, `Some v` to the string `v`. -/
def jsonOfOptStr : Option String → Json
  | none => Json.null
  | some v => Json.str v

/-- `collab_folder::ViewIdentifier`. -/
structure ViewIdentifier where
  id : String
deriving DecidableEq, Repr

/-- `collab_folder::RepeatedViewIdentifier`. -/
structure RepeatedViewIdentifier where
  items : List ViewIdentifier
deriving DecidableEq, Repr

/-- A folder `View` (`collab_folder::View`); the icon is kept as an opaque
string since the duplicator only copies it through. -/
structure View where
  id : String
  parent_view_id : String
  name : String
  desc : String
  children : RepeatedViewIdentifier
  created_at : Int
  is_favorite : Bool
  layout : ViewLayout
  icon : Option String
  created_by : Option Int
  last_edited_time : Int
  last_edited_by : Option Int
  extra : Option String
deriving DecidableEq, Repr

/-- `shared_entity::dto::publish_dto::PublishViewInfo` restricted to the fields
the duplicator reads (`view_id`, `name`, `icon`, `layout`, `extra`,
`child_views`). -/
inductive PublishViewInfo where
  | mk (view_id : String) (name : String) (icon : Option String)
       (layout : ViewLayout) (extra : Option String)
       (child_views : Option (List PublishViewInfo))
deriving Repr

/-- Projection: the view id. -/
def PublishViewInfo.view_id : PublishViewInfo → String
  | PublishViewInfo.mk v _ _ _ _ _ => v

/-- Projection: the view name. -/
def PublishViewInfo.name : PublishViewInfo → String
  | PublishViewInfo.mk _ n _ _ _ _ => n

/-- Projection: the view icon. -/
def PublishViewInfo.icon : PublishViewInfo → Option String
  | PublishViewInfo.mk _ _ i _ _ _ => i

/-- Projection: the view layout. -/
def PublishViewInfo.layout : PublishViewInfo → ViewLayout
  | PublishViewInfo.mk _ _ _ l _ _ => l

/-- Projection: the extra payload. -/
def PublishViewInfo.extra : PublishViewInfo → Option String
  | PublishViewInfo.mk _ _ _ _ e _ => e

/-- Projection: the nested child views. -/
def PublishViewInfo.child_views : PublishViewInfo → Option (List PublishViewInfo)
  | PublishViewInfo.mk _ _ _ _ _ c => c

/-- `PublishViewMetaData`. -/
structure PublishViewMetaData where
  view : PublishViewInfo
  child_views : List PublishViewInfo
  ancestor_views : List PublishViewInfo
deriving Repr

/-- A database view's row order entry (`collab_database::rows::RowOrder`,
restricted to the `id` the duplicator rewrites). -/
structure RowOrder where
  id : String
deriving DecidableEq, Repr

/-- A database view as read from the database collab's `views` map
(`collab_database` view, restricted to the fields the duplicator touches). -/
structure DbView where
  id : String
  database_id : String
  layout : DatabaseLayout
  row_orders : List RowOrder
deriving DecidableEq, Repr

/-- The typed content of a database-row collab: the root `data` map (when
present) carries `id` and `database_id`. -/
structure RowData where
  hasData : Bool
  row_id : String
  row_database_id : String
deriving DecidableEq, Repr

/-- The typed content of a database collab: root map `database` with child
`id`, child map `fields` (carrying `id`) and child map `views` (`none` models
an absent `views` map). -/
structure DatabaseBody where
  database_id : String
  fields_id : String
  views : Option (List DbView)
deriving DecidableEq, Repr

/-- `shared_entity::dto::publish_dto::PublishDatabaseData`, with the two byte
blobs already decoded to their typed contents. -/
structure PublishDatabaseData where
  database_collab : DatabaseBody
  database_row_collabs : List (String × RowData)
  visible_database_view_ids : List String
deriving Repr

/-- A document block (`collab_document::blocks::Block`), restricted to the
`ty` tag and the `data` JSON map the duplicator reads and rewrites. -/
structure Block where
  ty : String
  data : List (String × Json)
deriving Repr

/-- A `text_map` value: the stored string either fails to parse as JSON
(`raw`) or parses to a value (`json`, identified with its canonical
serialisation). -/
inductive TextVal where
  | raw (s : String)
  | json (j : Json)
deriving Repr

/-- `collab_document` document meta, restricted to the `text_map`. -/
structure DocumentMeta where
  text_map : Option (List (String × TextVal))
deriving Repr

/-- `collab_document::blocks::DocumentData`, restricted to the blocks map and
the meta the duplicator touches. -/
structure DocumentData where
  blocks : List (String × Block)
  meta : DocumentMeta
deriving Repr

/-- A published blob: either an encoded Document collab or a JSON-encoded
`PublishDatabaseData`, kept in already-parsed form. -/
inductive PublishedBlob where
  | docBlob (d : DocumentData)
  | dbBlob (d : PublishDatabaseData)
deriving Repr

/-- The error kinds of `app_error::AppError` produced on the modelled paths.
`FuelOut` is a model artifact marking exhaustion of the recursion fuel; it is
never produced at sufficient fuel. -/
inductive AppError where
  | RecordNotFound (msg : String)
  | Unhandled (msg : String)
  | ParseErr
  | FuelOut
deriving DecidableEq, Repr

/-- Typed payload of an inserted collab. -/
inductive CollabPayload where
  | doc (d : DocumentData)
  | db (d : DatabaseBody)
  | row (r : RowData)
  | folder (inserted : List View)
  | wsdb (entries : List (String × List String))
deriving Repr

/-- An observable effect of the run: a collab insert through the SQL
transaction, or a group broadcast. -/
inductive Event where
  | insert (oid : String) (t : CollabType) (p : CollabPayload)
  | broadcast (oid : String)
deriving Repr

/-- Record of one invocation of `deep_copy_database_txn` (instrumentation
marking the function-call boundary, used to state claims about the arguments
the database rewriter is invoked with). -/
structure DbCall where
  old_view_id : String
  new_view_id : String
  new_db_id : String
deriving DecidableEq, Repr

/-- The duplication state owned by `PublishCollabDuplicator`, plus the model's
fresh-id counter, transaction buffer and call log. -/
structure DupState where
  duplicated_refs : List (String × Option String)
  views_to_add : List View
  workspace_databases : List (String × List String)
  gen : Nat
  trace : List Event
  calls : List DbCall
deriving Repr

/-- The read-only environment of one run: the publish store, destination
identifiers, the duplicating user, the wall clock read once per run, and the
destination's workspace-database meta collab content. -/
structure Env where
  store : String → Option (PublishViewMetaData × PublishedBlob)
  dest_workspace_id : String
  dest_view_id : String
  duplicator_uid : Int
  ts_now : Int
  ws_db_oid : String
  dest_wsdb : List (String × List String)

/-- The injective fresh-id supply standing for `uuid::Uuid::new_v4()`. -/
def freshId (n : Nat) : String := "new-" ++ Nat.repr n

/-- Result type of a stateful step: an `AppError` or a value, together with
the state after the step (errors keep the state so the transaction buffer is
observable until the top-level rollback discards it). -/
abbrev DupResult (α : Type) := Except AppError α × DupState

/-- Sequencing of stateful steps. -/
def bindR {α β : Type} (x : DupResult α)
    (f : α → DupState → DupResult β) : DupResult β :=
  match x with
  | (Except.ok a, s) => f a s
  | (Except.error e, s) => (Except.error e, s)

@[simp]
theorem bindR_ok {α β : Type} (a : α) (s : DupState)
    (f : α → DupState → DupResult β) : bindR (Except.ok a, s) f = f a s := rfl

@[simp]
theorem bindR_err {α β : Type} (e : AppError) (s : DupState)
    (f : α → DupState → DupResult β) :
    bindR (Except.error e, s) f = (Except.error e, s) := rfl

/-- Draw a fresh id (`uuid::Uuid::new_v4()`). -/
def genFresh (s : DupState) : DupResult String :=
  (Except.ok (freshId s.gen), { s with gen := s.gen + 1 })

/-- Record an insert through `insert_collab_for_duplicator` into the
transaction buffer. -/
def insertCollab (oid : String) (t : CollabType) (p : CollabPayload)
    (s : DupState) : DupResult Unit :=
  (Except.ok (), { s with trace := s.trace ++ [Event.insert oid t p] })

/-- Record a `broadcast_update` (best-effort; never fails). -/
def emitBroadcast (oid : String) (s : DupState) : DupResult Unit :=
  (Except.ok (), { s with trace := s.trace ++ [Event.broadcast oid] })

/-- Push a view onto `views_to_add`. -/
def pushViewToAdd (v : View) (s : DupState) : DupResult Unit :=
  (Except.ok (), { s with views_to_add := s.views_to_add ++ [v] })

/-- `self.duplicated_refs.insert(old, val)`. -/
def insertRef (old : String) (val : Option String) (s : DupState) :
    DupResult Unit :=
  (Except.ok (), { s with duplicated_refs := insertA s.duplicated_refs old val })

/-- Record one `deep_copy_database_txn` invocation (instrumentation). -/
def recordDbCall (c : DbCall) (s : DupState) : DupResult Unit :=
  (Except.ok (), { s with calls := s.calls ++ [c] })

/-- The source's `new_folder_view`. -/
def new_folder_view (env : Env) (new_view_id : String)
    (view_info : PublishViewInfo) (layout : ViewLayout) : View :=
  { id := new_view_id
    parent_view_id := ""
    name := view_info.name
    desc := ""
    children := { items := [] }
    created_at := env.ts_now
    is_favorite := false
    layout := layout
    icon := view_info.icon
    created_by := some env.duplicator_uid
    last_edited_time := env.ts_now
    last_edited_by := some env.duplicator_uid
    extra := view_info.extra }

/-- The source's `view_info_map`: fold the nested child-view tree into a map
keyed by view id. -/
def view_info_map : List (String × PublishViewInfo) → List PublishViewInfo →
    List (String × PublishViewInfo)
  | acc, [] => acc
  | acc, PublishViewInfo.mk v n i l e c :: rest =>
    let acc1 := insertA acc v (PublishViewInfo.mk v n i l e c)
    let acc2 := match c with
      | some cs => view_info_map acc1 cs
      | none => acc1
    view_info_map acc2 rest

/-- The source's `view_info_by_view_id`. -/
def view_info_by_view_id (meta : PublishViewMetaData) :
    List (String × PublishViewInfo) :=
  view_info_map (insertA [] meta.view.view_id meta.view) meta.child_views

/-- A cloned row: the collab's `object_id` (the fresh row id it was created
under) together with its rewritten `data` content. -/
structure RowInstance where
  object_id : String
  data : RowData
deriving DecidableEq, Repr

/-- Step 1 of `deep_copy_database_txn`: clone every published row collab under
a fresh id, rewriting `data.id` and `data.database_id` when the root `data`
map exists, insert it as a `DatabaseRow`, and build the
`old_row_id -> row collab` map. -/
def cloneRows (new_db_id : String) :
    List (String × RowData) → DupState → DupResult (List (String × RowInstance))
  | [], s => (Except.ok [], s)
  | (old_id, r) :: rest, s =>
    bindR (genFresh s) fun new_row_id s =>
    let r' := if r.hasData then
        { r with row_id := new_row_id, row_database_id := new_db_id }
      else r
    bindR (insertCollab new_row_id CollabType.DatabaseRow (CollabPayload.row r') s)
      fun _ s =>
    bindR (cloneRows new_db_id rest s) fun rest' s =>
    (Except.ok ((old_id, RowInstance.mk new_row_id r') :: rest'), s)

/-- The later `selected_view` assignment wins (the source overwrites the
mutable option on every main-view hit). -/
def pickLater (cur later : Option View) : Option View :=
  match later with
  | some v => some v
  | none => cur

/-- Step 4 of `deep_copy_database_txn`: the first loop over the retained
database views, rewriting ids, collecting `new_db_view_ids`, building the
`selected_view` and pushing sibling folder views onto `views_to_add`. -/
def rewriteDbViews (env : Env) (old_view_id new_view_id new_db_id : String)
    (metadata : PublishViewMetaData)
    (viewInfoById : List (String × PublishViewInfo)) :
    List DbView → DupState → DupResult (List DbView × List String × Option View)
  | [], s => (Except.ok ([], [], none), s)
  | v0 :: rest, s =>
    let v1 := { v0 with database_id := new_db_id }
    if old_view_id = v1.id then
      let v2 := { v1 with id := new_view_id }
      let sel := new_folder_view env new_view_id metadata.view
        (db_layout_to_view_layout v2.layout)
      bindR (rewriteDbViews env old_view_id new_view_id new_db_id metadata
          viewInfoById rest s) fun r s =>
      (Except.ok (v2 :: r.1, new_view_id :: r.2.1, pickLater (some sel) r.2.2), s)
    else
      match lookupA viewInfoById v1.id with
      | none =>
        (Except.error (AppError.RecordNotFound
          ("metadata not found for view: " ++ v1.id)), s)
      | some other_view_meta =>
        bindR (genFresh s) fun other_id s =>
        let v2 := { v1 with id := other_id }
        let ofv0 := new_folder_view env other_id other_view_meta
          (db_layout_to_view_layout v2.layout)
        let ofv := { ofv0 with parent_view_id := new_view_id }
        bindR (pushViewToAdd ofv s) fun _ s =>
        bindR (rewriteDbViews env old_view_id new_view_id new_db_id metadata
            viewInfoById rest s) fun r s =>
        (Except.ok (v2 :: r.1, other_id :: r.2.1, r.2.2), s)

/-- Step 5 of `deep_copy_database_txn` for one view: replace every
`row_order.id` with the matching row collab's new `object_id`. -/
def rewriteRowOrdersList (rowMap : List (String × RowInstance)) :
    List RowOrder → Except AppError (List RowOrder)
  | [] => Except.ok []
  | ro :: rest =>
    match lookupA rowMap ro.id with
    | none => Except.error (AppError.RecordNotFound ("row not found: " ++ ro.id))
    | some inst =>
      match rewriteRowOrdersList rowMap rest with
      | Except.error e => Except.error e
      | Except.ok rest' => Except.ok ({ ro with id := inst.object_id } :: rest')

/-- Step 5 of `deep_copy_database_txn` over all retained views. -/
def rewriteAllRowOrders (rowMap : List (String × RowInstance)) :
    List DbView → Except AppError (List DbView)
  | [] => Except.ok []
  | v :: rest =>
    match rewriteRowOrdersList rowMap v.row_orders with
    | Except.error e => Except.error e
    | Except.ok ros =>
      match rewriteAllRowOrders rowMap rest with
      | Except.error e => Except.error e
      | Except.ok rest' => Except.ok ({ v with row_orders := ros } :: rest')

/-- The view filter of step 3 of `deep_copy_database_txn`: keep a view iff its
id equals `old_view_id` or appears in `visible_database_view_ids`. -/
def retainFilter (old_view_id : String) (published_db : PublishDatabaseData)
    (v : DbView) : Bool :=
  v.id == old_view_id || published_db.visible_database_view_ids.contains v.id

/-- Lift a pure `Except` computation into a stateful step. -/
def liftE {α : Type} (x : Except AppError α) (s : DupState) : DupResult α :=
  (x, s)

/-- Record `workspace_databases[new_db_id] = new_db_view_ids`. -/
def setWsDb (k : String) (ids : List String) (s : DupState) : DupResult Unit :=
  (Except.ok (),
    { s with workspace_databases := insertA s.workspace_databases k ids })

/-- The source's `deep_copy_database_txn`. -/
def deep_copy_database_txn (env : Env)
    (old_view_id new_view_id new_db_id : String)
    (published_db : PublishDatabaseData) (metadata : PublishViewMetaData)
    (s : DupState) : DupResult View :=
  bindR (recordDbCall (DbCall.mk old_view_id new_view_id new_db_id) s) fun _ s =>
  let viewInfoById := view_info_by_view_id metadata
  let db0 := published_db.database_collab
  bindR (cloneRows new_db_id published_db.database_row_collabs s)
    fun publish_row_by_id s =>
  let db1 : DatabaseBody :=
    { db0 with database_id := new_db_id, fields_id := new_db_id }
  match db1.views with
  | none => (Except.error (AppError.RecordNotFound "no views found in database"), s)
  | some allViews =>
    match allViews.filter (retainFilter old_view_id published_db) with
    | [] =>
      (Except.error (AppError.RecordNotFound
        "no (visible) views found in database"), s)
    | rv0 :: rvrest =>
      bindR (rewriteDbViews env old_view_id new_view_id new_db_id metadata
          viewInfoById (rv0 :: rvrest) s) fun r s =>
      match r.2.2 with
      | none => (Except.error (AppError.RecordNotFound "main view not found"), s)
      | some selected_view =>
        bindR (liftE (rewriteAllRowOrders publish_row_by_id r.1) s) fun views2 s =>
        bindR (setWsDb new_db_id r.2.1 s) fun _ s =>
        bindR (insertCollab new_db_id CollabType.Database
          (CollabPayload.db { db1 with views := some views2 }) s) fun _ s =>
        (Except.ok selected_view, s)

/-- The page-mention rewrite of one `page_id` slot (`deep_copy_doc_pages`,
lines of the `for page_id in page_ids` loop). -/
def copyPageSlot (recurse : String → String → DupState → DupResult (Option View))
    (rv : View) (pid : Json) (s : DupState) : DupResult (Json × View) :=
  match pid.asStr with
  | none => (Except.ok (pid, rv), s)
  | some p =>
    match lookupA s.duplicated_refs p with
    | some (some vid) =>
      (Except.ok (Json.str vid,
        { rv with children := { items := rv.children.items ++ [ViewIdentifier.mk vid] } }), s)
    | some none => (Except.ok (pid, rv), s)
    | none =>
      bindR (genFresh s) fun nid s =>
      bindR (recurse nid p s) fun res s =>
      match res with
      | some nv0 =>
        let nv := { nv0 with parent_view_id := rv.id }
        let rv' :=
          { rv with children := { items := rv.children.items ++ [ViewIdentifier.mk nv.id] } }
        bindR (insertRef p (some nv.id) s) fun _ s =>
        bindR (pushViewToAdd nv s) fun _ s =>
        (Except.ok (Json.str nv.id, rv'), s)
      | none =>
        bindR (insertRef p none s) fun _ s =>
        (Except.ok (pid, rv), s)

/-- Rewrite the mention of a single delta entry (skipping entries without a
page mention, as the source's iterator chain does). -/
def processDeltaElem (recurse : String → String → DupState → DupResult (Option View))
    (rv : View) (elem : Json) (s : DupState) : DupResult (Json × View) :=
  match elem.get "attributes" with
  | none => (Except.ok (elem, rv), s)
  | some attrs =>
    match attrs.get "mention" with
    | none => (Except.ok (elem, rv), s)
    | some mention =>
      if (mention.get "type").bind Json.asStr = some "page" then
        match mention.get "page_id" with
        | none => (Except.ok (elem, rv), s)
        | some pid =>
          bindR (copyPageSlot recurse rv pid s) fun r s =>
          (Except.ok (elem.setKey "attributes"
            (attrs.setKey "mention" (mention.setKey "page_id" r.1)), r.2), s)
      else (Except.ok (elem, rv), s)

/-- Rewrite the mentions of one delta array in order. -/
def processDeltaArr (recurse : String → String → DupState → DupResult (Option View)) :
    View → List Json → DupState → DupResult (List Json × View)
  | rv, [], s => (Except.ok ([], rv), s)
  | rv, e :: rest, s =>
    bindR (processDeltaElem recurse rv e s) fun r s =>
    bindR (processDeltaArr recurse r.2 rest s) fun r' s =>
    (Except.ok (r.1 :: r'.1, r'.2), s)

/-- Walk one block's `data` entries; only entries keyed `delta` whose value is
an array are processed. -/
def processBlockData (recurse : String → String → DupState → DupResult (Option View)) :
    View → List (String × Json) → DupState → DupResult (List (String × Json) × View)
  | rv, [], s => (Except.ok ([], rv), s)
  | rv, (k, v) :: rest, s =>
    if k = "delta" then
      match v with
      | Json.arr elems =>
        bindR (processDeltaArr recurse rv elems s) fun r s =>
        bindR (processBlockData recurse r.2 rest s) fun r' s =>
        (Except.ok ((k, Json.arr r.1) :: r'.1, r'.2), s)
      | other =>
        bindR (processBlockData recurse rv rest s) fun r' s =>
        (Except.ok ((k, other) :: r'.1, r'.2), s)
    else
      bindR (processBlockData recurse rv rest s) fun r' s =>
      (Except.ok ((k, v) :: r'.1, r'.2), s)

/-- Walk all blocks' delta mentions in order. -/
def processBlocks (recurse : String → String → DupState → DupResult (Option View)) :
    View → List (String × Block) → DupState → DupResult (List (String × Block) × View)
  | rv, [], s => (Except.ok ([], rv), s)
  | rv, (bid, b) :: rest, s =>
    bindR (processBlockData recurse rv b.data s) fun r s =>
    bindR (processBlocks recurse r.2 rest s) fun r' s =>
    (Except.ok ((bid, { b with data := r.1 }) :: r'.1, r'.2), s)

/-- The text-map rewrite of one delta entry: rewrite `page_id` through the
existing `duplicated_refs` only.  A tombstone entry (`some none`) serialises
to JSON `null`, exactly as the source's `serde_json::json!(new_page_id)` on a
`&Option<String>` does. -/
def rewriteTextElem (refs : List (String × Option String)) (elem : Json) : Json :=
  match elem.get "attributes" with
  | none => elem
  | some attrs =>
    match attrs.get "mention" with
    | none => elem
    | some mention =>
      if (mention.get "type").bind Json.asStr = some "page" then
        match mention.get "page_id" with
        | none => elem
        | some pid =>
          match pid.asStr with
          | none => elem
          | some p =>
            match lookupA refs p with
            | some ov =>
              elem.setKey "attributes" (attrs.setKey "mention"
                (mention.setKey "page_id" (jsonOfOptStr ov)))
            | none => elem
      else elem

/-- The text-map rewrite of one parsed value: only array values are walked
(`as_array_mut`), all others are left unchanged. -/
def rewriteTextJson (refs : List (String × Option String)) (j : Json) : Json :=
  match j with
  | Json.arr elems => Json.arr (elems.map (rewriteTextElem refs))
  | other => other

/-- The text-map rewrite of one stored value: values that fail to parse are
left unchanged (logged and skipped in the source). -/
def rewriteTextVal (refs : List (String × Option String)) : TextVal → TextVal
  | TextVal.raw s0 => TextVal.raw s0
  | TextVal.json j => TextVal.json (rewriteTextJson refs j)

/-- The source's `deep_copy_doc_pages`: the delta-mention pass followed by the
text-map pass. -/
def deep_copy_doc_pages
    (recurse : String → String → DupState → DupResult (Option View))
    (doc : DocumentData) (rv : View) (s : DupState) :
    DupResult (DocumentData × View) :=
  bindR (processBlocks recurse rv doc.blocks s) fun r s =>
  let tm' := doc.meta.text_map.map
    (List.map (fun kv => (kv.1, rewriteTextVal s.duplicated_refs kv.2)))
  (Except.ok ({ blocks := r.1, meta := { text_map := tm' } }, r.2), s)

/-- The body of the `for (_block_id, block) in db_blocks` loop of the source's
`deep_copy_doc_databases`, for one grid/board/calendar block. -/
def copy_doc_db_block (env : Env) (ret_view_id : String) (block : Block)
    (s : DupState) : DupResult Block :=
  match lookupA block.data "view_id" with
  | none =>
    (Except.error (AppError.RecordNotFound "view_id not found in block data"), s)
  | some bv =>
    match bv.asStr with
    | none => (Except.error (AppError.RecordNotFound "view_id not a string"), s)
    | some view_id_str =>
      match env.store view_id_str with
      | none => (Except.ok block, s)
      | some md =>
        match md.2 with
        | PublishedBlob.docBlob _ => (Except.error AppError.ParseErr, s)
        | PublishedBlob.dbBlob db_payload =>
          match md.1.ancestor_views.reverse.get? 1 with
          | none =>
            (Except.error (AppError.RecordNotFound "ancestor_views not found"), s)
          | some second_last =>
            bindR (genFresh s) fun new_block_view_id s =>
            bindR (genFresh s) fun new_db_folder_view_id s =>
            bindR (genFresh s) fun new_db_id s =>
            bindR (deep_copy_database_txn env second_last.view_id
                new_db_folder_view_id new_db_id db_payload md.1 s) fun nfdv s =>
            bindR (pushViewToAdd { nfdv with parent_view_id := ret_view_id } s)
              fun _ s =>
            let dvid := new_folder_view env new_block_view_id md.1.view
              md.1.view.layout
            bindR (pushViewToAdd { dvid with parent_view_id := new_db_folder_view_id } s)
              fun _ s =>
            match lookupA s.workspace_databases new_db_id with
            | none =>
              (Except.error (AppError.RecordNotFound "workspace database not found"), s)
            | some linked =>
              let wsdbs' := updateA s.workspace_databases new_db_id
                (linked ++ [new_block_view_id])
              let s := { s with workspace_databases := wsdbs' }
              let data1 := updateA block.data "view_id" (Json.str new_block_view_id)
              match lookupA data1 "parent_id" with
              | none =>
                (Except.error (AppError.RecordNotFound
                  "parent_id not found in block data"), s)
              | some _ =>
                let data2 := updateA data1 "parent_id"
                  (Json.str new_db_folder_view_id)
                (Except.ok { block with data := data2 }, s)

/-- The source's `deep_copy_doc_databases`: fold over the blocks, processing
only those whose `ty` is `grid`, `board` or `calendar`. -/
def deep_copy_doc_databases (env : Env) (ret_view_id : String) :
    List (String × Block) → DupState → DupResult (List (String × Block))
  | [], s => (Except.ok [], s)
  | (bid, b) :: rest, s =>
    if b.ty = "grid" ∨ b.ty = "board" ∨ b.ty = "calendar" then
      bindR (copy_doc_db_block env ret_view_id b s) fun b' s =>
      bindR (deep_copy_doc_databases env ret_view_id rest s) fun rest' s =>
      (Except.ok ((bid, b') :: rest'), s)
    else
      bindR (deep_copy_doc_databases env ret_view_id rest s) fun rest' s =>
      (Except.ok ((bid, b) :: rest'), s)

/-- The source's `deep_copy_doc_txn`, with the recursive page copy abstracted
as `recurse`. -/
def deep_copy_doc_txn
    (recurse : String → String → DupState → DupResult (Option View))
    (env : Env) (new_view_id : String) (doc : DocumentData)
    (metadata : PublishViewMetaData) (s : DupState) : DupResult View :=
  let ret_view := new_folder_view env new_view_id metadata.view ViewLayout.Document
  bindR (deep_copy_doc_pages recurse doc ret_view s) fun r s =>
  bindR (deep_copy_doc_databases env r.2.id r.1.blocks s) fun blocks' s =>
  bindR (insertCollab r.2.id CollabType.Document
    (CollabPayload.doc { r.1 with blocks := blocks' }) s) fun _ s =>
  (Except.ok r.2, s)

/-- The source's `deep_copy_txn`, with a fuel bound on the page-mention
recursion (the model artifact `AppError.FuelOut` is raised only when the fuel
runs out). -/
def deep_copy_txn (env : Env) :
    Nat → String → String → CollabType → DupState → DupResult (Option View)
  | 0, _, _, _, s => (Except.error AppError.FuelOut, s)
  | Nat.succ fuel, new_view_id, publish_view_id, collab_type, s =>
    match env.store publish_view_id with
    | none => (Except.ok none, s)
    | some mb =>
      bindR (insertRef publish_view_id (some new_view_id) s) fun _ s =>
      match collab_type with
      | CollabType.Document =>
        match mb.2 with
        | PublishedBlob.dbBlob _ =>
          (Except.error (AppError.Unhandled "failed to decode document"), s)
        | PublishedBlob.docBlob doc =>
          bindR (deep_copy_doc_txn
            (fun nv pid => deep_copy_txn env fuel nv pid CollabType.Document)
            env new_view_id doc mb.1 s) fun v s =>
          (Except.ok (some v), s)
      | CollabType.Database =>
        match mb.2 with
        | PublishedBlob.docBlob _ => (Except.error AppError.ParseErr, s)
        | PublishedBlob.dbBlob db_payload =>
          bindR (genFresh s) fun ndb s =>
          bindR (deep_copy_database_txn env publish_view_id new_view_id ndb
            db_payload mb.1 s) fun v s =>
          (Except.ok (some v), s)
      | _ => (Except.ok none, s)

/-- The source's `deep_copy` (the orchestrator): root copy, optional
workspace-database meta update, folder update, broadcasts. -/
def deep_copy (env : Env) (fuel : Nat) (publish_view_id : String)
    (collab_type : CollabType) (s : DupState) : DupResult Unit :=
  bindR (genFresh s) fun root_id s =>
  bindR (deep_copy_txn env fuel root_id publish_view_id collab_type s)
    fun rootOpt s =>
  match rootOpt with
  | none =>
    (Except.error (AppError.RecordNotFound
      "view not found, it might be unpublished"), s)
  | some root_view0 =>
    let root_view := { root_view0 with parent_view_id := env.dest_view_id }
    bindR
      (match s.workspace_databases with
       | [] => (Except.ok (), s)
       | _ :: _ =>
         bindR (emitBroadcast env.ws_db_oid s) fun _ s =>
         insertCollab env.ws_db_oid CollabType.WorkspaceDatabase
           (CollabPayload.wsdb (env.dest_wsdb ++ s.workspace_databases)) s)
      fun _ s =>
    bindR (insertCollab env.dest_workspace_id CollabType.Folder
      (CollabPayload.folder (root_view :: s.views_to_add)) s) fun _ s =>
    bindR (emitBroadcast env.dest_workspace_id s) fun _ s =>
    (Except.ok (), s)

/-- The empty duplication state a run starts from. -/
def initState : DupState :=
  { duplicated_refs := [], views_to_add := [], workspace_databases := [],
    gen := 0, trace := [], calls := [] }

/-- One full run of the duplicator from the empty state. -/
def dup_run (env : Env) (fuel : Nat) (publish_view_id : String)
    (collab_type : CollabType) : DupResult Unit :=
  deep_copy env fuel publish_view_id collab_type initState

/-- The inserts of a transaction buffer, in order. -/
def insertsOf (t : List Event) : List (String × CollabType × CollabPayload) :=
  t.filterMap (fun e => match e with
    | Event.insert o ty p => some (o, ty, p)
    | Event.broadcast _ => none)

/-- The externally visible result of
`duplicate_published_collab_to_workspace`: the transaction buffer is applied
to the destination store only when the run commits; any error path drops the
transaction (rollback). -/
def duplicate_published_collab_to_workspace (env : Env) (fuel : Nat)
    (publish_view_id : String) (collab_type : CollabType)
    (dest : List (String × CollabType × CollabPayload)) :
    Except AppError Unit × List (String × CollabType × CollabPayload) :=
  match dup_run env fuel publish_view_id collab_type with
  | (Except.ok _, s) => (Except.ok (), dest ++ insertsOf s.trace)
  | (Except.error e, _) => (Except.error e, dest)

/-! Association-list facts used throughout the claim proofs. -/

theorem lookupA_insertA_self {α : Type} (l : List (String × α)) (k : String)
    (v : α) : lookupA (insertA l k v) k = some v := by
  induction l with
  | nil => simp [insertA, lookupA]
  | cons hd tl ih =>
    cases hd with
    | mk k' v' =>
      by_cases hk : k = k'
      · simp [insertA, hk, lookupA]
      · simp [insertA, hk, lookupA, ih]

theorem lookupA_updateA_self {α : Type} (l : List (String × α)) (k : String)
    (v w : α) (h : lookupA l k = some w) :
    lookupA (updateA l k v) k = some v := by
  induction l with
  | nil => simp [lookupA] at h
  | cons hd tl ih =>
    cases hd with
    | mk k' v' =>
      by_cases hk : k = k'
      · simp [updateA, hk, lookupA]
      · simp [lookupA, hk] at h
        simp [updateA, hk, lookupA, ih h]

/-! Claim C7: unpublished root. -/

/-- C7.  For every run whose root `publish_view_id` has no published blob in
the publish store (and any fuel at least 1, so the model's fuel bound is not
the cause), the run returns
`RecordNotFound("view not found, it might be unpublished")` and the
destination store is unchanged (the SQL transaction is rolled back, never
committed). -/
theorem C7_unpublished_root (env : Env) (fuel : Nat) (pid : String)
    (ct : CollabType) (dest : List (String × CollabType × CollabPayload))
    (h : env.store pid = none) :
    duplicate_published_collab_to_workspace env (fuel + 1) pid ct dest =
      (Except.error (AppError.RecordNotFound
        "view not found, it might be unpublished"), dest) := by
  simp [duplicate_published_collab_to_workspace, dup_run, deep_copy, genFresh,
    deep_copy_txn, h]

/-- Witness for C7 at a concrete input: an empty publish store. -/
theorem C7_unpublished_root_witness :
    duplicate_published_collab_to_workspace
      { store := fun _ => none, dest_workspace_id := "ws", dest_view_id := "dv",
        duplicator_uid := 1, ts_now := 5, ws_db_oid := "wo", dest_wsdb := [] }
      1 "missing" CollabType.Document [] =
      (Except.error (AppError.RecordNotFound
        "view not found, it might be unpublished"), []) :=
  C7_unpublished_root _ 0 "missing" CollabType.Document [] rfl

/-! Claim C8: unsupported collab type. -/

/-- C8.  For every run invoked with a `collab_type` that is neither `Document`
nor `Database`, the run returns a `RecordNotFound` error (never a no-op
success) and the destination store is unchanged, whether or not the root view
is published. -/
theorem C8_unsupported_collab_type (env : Env) (fuel : Nat) (pid : String)
    (ct : CollabType) (dest : List (String × CollabType × CollabPayload))
    (h1 : ct ≠ CollabType.Document) (h2 : ct ≠ CollabType.Database) :
    duplicate_published_collab_to_workspace env (fuel + 1) pid ct dest =
      (Except.error (AppError.RecordNotFound
        "view not found, it might be unpublished"), dest) := by
  cases hs : env.store pid with
  | none => exact C7_unpublished_root env fuel pid ct dest hs
  | some mb =>
    cases ct with
    | Document => exact absurd rfl h1
    | Database => exact absurd rfl h2
    | DatabaseRow =>
      simp [duplicate_published_collab_to_workspace, dup_run, deep_copy,
        genFresh, deep_copy_txn, hs, insertRef]
    | Folder =>
      simp [duplicate_published_collab_to_workspace, dup_run, deep_copy,
        genFresh, deep_copy_txn, hs, insertRef]
    | WorkspaceDatabase =>
      simp [duplicate_published_collab_to_workspace, dup_run, deep_copy,
        genFresh, deep_copy_txn, hs, insertRef]
    | Unknown =>
      simp [duplicate_published_collab_to_workspace, dup_run, deep_copy,
        genFresh, deep_copy_txn, hs, insertRef]

/-- A one-document publish store used by the C8 witness (the root is
published, so the witness exercises the catch-all arm rather than the
missing-blob path). -/
def envC8 : Env :=
  { store := fun x =>
      if x = "pub" then
        some ({ view := PublishViewInfo.mk "pub" "P" none ViewLayout.Document none none,
                child_views := [], ancestor_views := [] },
          PublishedBlob.docBlob { blocks := [], meta := { text_map := none } })
      else none,
    dest_workspace_id := "ws", dest_view_id := "dv", duplicator_uid := 1,
    ts_now := 5, ws_db_oid := "wo", dest_wsdb := [] }

/-- Witness for C8 at a concrete input: a `Folder`-typed run on a published
view returns `RecordNotFound` and leaves the destination unchanged. -/
theorem C8_unsupported_collab_type_witness :
    duplicate_published_collab_to_workspace envC8 1 "pub" CollabType.Folder
      [("keep", CollabType.Document,
        CollabPayload.doc { blocks := [], meta := { text_map := none } })] =
      (Except.error (AppError.RecordNotFound
        "view not found, it might be unpublished"),
       [("keep", CollabType.Document,
        CollabPayload.doc { blocks := [], meta := { text_map := none } })]) :=
  C8_unsupported_collab_type envC8 0 "pub" CollabType.Folder _
    (by simp) (by simp)

/-! Claim C5: atomicity of the failed run. -/

/-- C5.  For every run and every error (at any step, in particular after any
number of collab inserts), the SQL transaction is not committed and the
destination store is left unchanged: the run returns the error and the
destination holds exactly the collabs it held before. -/
theorem C5_atomic_rollback (env : Env) (fuel : Nat) (pid : String)
    (ct : CollabType) (dest : List (String × CollabType × CollabPayload))
    (e : AppError) (h : (dup_run env fuel pid ct).1 = Except.error e) :
    duplicate_published_collab_to_workspace env fuel pid ct dest =
      (Except.error e, dest) := by
  unfold duplicate_published_collab_to_workspace
  rcases hr : dup_run env fuel pid ct with ⟨r, s⟩
  rw [hr] at h
  simp at h
  rw [h]

/-- A publish store holding one database whose collab has rows but no `views`
map: the run inserts the cloned row and then fails, exercising an error after
the first insert. -/
def envC5 : Env :=
  { store := fun x =>
      if x = "db" then
        some ({ view := PublishViewInfo.mk "db" "D" none ViewLayout.Grid none none,
                child_views := [], ancestor_views := [] },
          PublishedBlob.dbBlob
            { database_collab :=
                { database_id := "old", fields_id := "old", views := none },
              database_row_collabs :=
                [("r1", { hasData := true, row_id := "r1", row_database_id := "old" })],
              visible_database_view_ids := [] })
      else none,
    dest_workspace_id := "ws", dest_view_id := "dv", duplicator_uid := 1,
    ts_now := 5, ws_db_oid := "wo", dest_wsdb := [] }

/-- Witness for C5 at a concrete input: the run on `envC5` clones and inserts
a row collab and then fails with `RecordNotFound`; the destination is
unchanged. -/
theorem C5_atomic_rollback_witness :
    (dup_run envC5 1 "db" CollabType.Database).2.trace =
      [Event.insert "new-2" CollabType.DatabaseRow (CollabPayload.row
        { hasData := true, row_id := "new-2", row_database_id := "new-1" })] ∧
    duplicate_published_collab_to_workspace envC5 1 "db" CollabType.Database
      [("keep", CollabType.Folder, CollabPayload.folder [])] =
      (Except.error (AppError.RecordNotFound "no views found in database"),
       [("keep", CollabType.Folder, CollabPayload.folder [])]) :=
  ⟨rfl, C5_atomic_rollback envC5 1 "db" CollabType.Database _ _ rfl⟩

/-! Claim C10: silent skip of an unpublished embedded-database block. -/

/-- C10.  For every grid/board/calendar block whose `block.data.view_id` is a
string with no published data, the duplicator silently skips the block: the
block is returned unchanged, the duplication state (refs, views, workspace
databases, fresh-id counter, transaction buffer) is untouched, and no error is
returned. -/
theorem C10_skip_unpublished_db_block (env : Env) (rid : String) (b : Block)
    (s : DupState) (vid : String)
    (hv : lookupA b.data "view_id" = some (Json.str vid))
    (hs : env.store vid = none) :
    copy_doc_db_block env rid b s = (Except.ok b, s) := by
  unfold copy_doc_db_block
  rw [hv]
  simp [Json.asStr, hs]

/-- A concrete grid block whose `view_id` has no published data. -/
def blockC10 : Block :=
  { ty := "grid",
    data := [("view_id", Json.str "nodb"), ("parent_id", Json.str "pp")] }

/-- Witness for C10 at a concrete input. -/
theorem C10_skip_unpublished_db_block_witness :
    copy_doc_db_block
      { store := fun _ => none, dest_workspace_id := "ws", dest_view_id := "dv",
        duplicator_uid := 1, ts_now := 5, ws_db_oid := "wo", dest_wsdb := [] }
      "rv" blockC10 initState = (Except.ok blockC10, initState) :=
  C10_skip_unpublished_db_block _ "rv" blockC10 initState "nodb" rfl rfl

/-! Claim C1: tombstoned mentions. -/

/-- A delta entry carrying a page mention of `p`. -/
def mentionElem (p : Json) : Json :=
  Json.obj [("attributes", Json.obj [("mention", Json.obj
    [("type", Json.str "page"), ("page_id", p)])])]

/-- A one-block document whose delta carries a single page mention of `p`. -/
def mentionBlock (p : Json) : Block :=
  { ty := "paragraph", data := [("delta", Json.arr [mentionElem p])] }

/-- The C1 failing input: a document whose block delta mentions the
unpublished page `u`, and whose `text_map` carries the same mention. -/
def textMapC1 (p : Json) : List (String × TextVal) :=
  [("t", TextVal.json (Json.arr [mentionElem p]))]

def docC1 : DocumentData :=
  { blocks := [("b1", mentionBlock (Json.str "u"))],
    meta := { text_map := some (textMapC1 (Json.str "u")) } }

/-- The publish store for C1: only the root document is published; `u` is
not, so its mention acquires a tombstone. -/
def envC1 : Env :=
  { store := fun x =>
      if x = "root" then
        some ({ view := PublishViewInfo.mk "root" "R" none ViewLayout.Document none none,
                child_views := [], ancestor_views := [] },
          PublishedBlob.docBlob docC1)
      else none,
    dest_workspace_id := "ws", dest_view_id := "dv", duplicator_uid := 1,
    ts_now := 5, ws_db_oid := "wo", dest_wsdb := [] }

/-- C1 (evaluation of the code at the failing input).  The run on `envC1`
succeeds and records the tombstone `duplicated_refs[u] = None`; in the
inserted rewritten document the blocks' delta entry is textually unchanged at
the mention (the `page_id` is still the string `u`) and no child
`ViewIdentifier` is appended — but the `text_map` value is changed: its
`page_id` becomes JSON `null` (the source serialises the `Option<String>` map
value directly), contradicting the claim that every tombstoned mention is left
textually unchanged in every `text_map` value. -/
theorem C1_tombstone_textmap_bug :
    (dup_run envC1 2 "root" CollabType.Document).1 = Except.ok () ∧
    (dup_run envC1 2 "root" CollabType.Document).2.duplicated_refs =
      [("root", some "new-0"), ("u", none)] ∧
    (dup_run envC1 2 "root" CollabType.Document).2.trace.head? =
      some (Event.insert "new-0" CollabType.Document (CollabPayload.doc
        { blocks := [("b1", mentionBlock (Json.str "u"))],
          meta := { text_map := some (textMapC1 Json.null) } })) ∧
    (dup_run envC1 2 "root" CollabType.Document).2.views_to_add = [] :=
  ⟨rfl, rfl, rfl, rfl⟩

/-! Machinery shared by the database-claim proofs: closed forms and
frame lemmas. -/

/-- Closed form of the row map built by `cloneRows`, starting the fresh-id
supply at `g`. -/
def cloneRowsShape (ndb : String) (g : Nat) :
    List (String × RowData) → List (String × RowInstance)
  | [] => []
  | (old_id, r) :: rest =>
    (old_id, RowInstance.mk (freshId g)
        (if r.hasData then { r with row_id := freshId g, row_database_id := ndb }
         else r))
      :: cloneRowsShape ndb (g + 1) rest

/-- Closed form of the row-insert events emitted by `cloneRows`. -/
def rowEvents (ndb : String) (g : Nat) : List (String × RowData) → List Event
  | [] => []
  | (_, r) :: rest =>
    Event.insert (freshId g) CollabType.DatabaseRow
        (CollabPayload.row
          (if r.hasData then { r with row_id := freshId g, row_database_id := ndb }
           else r))
      :: rowEvents ndb (g + 1) rest

theorem cloneRows_eq (ndb : String) (rows : List (String × RowData))
    (s : DupState) :
    cloneRows ndb rows s =
      (Except.ok (cloneRowsShape ndb s.gen rows),
       { s with gen := s.gen + rows.length,
                trace := s.trace ++ rowEvents ndb s.gen rows }) := by
  induction rows generalizing s with
  | nil => simp [cloneRows, cloneRowsShape, rowEvents]
  | cons hd tl ih =>
    cases hd with
    | mk oldid r =>
      simp [cloneRows, genFresh, insertCollab, cloneRowsShape, rowEvents, ih,
        List.append_assoc]
      omega

/-! Claim C2: which `old_view_id` the embedded-database copy is invoked
with. -/

/-- Modelled from the spec's words, for refinement comparison with the source
(`copy_doc_db_block`): claim C2 states that the database deep-copy is invoked
with `old_view_id` equal to the id read from `block.data.view_id`.  This
variant differs from the source-translated `copy_doc_db_block` in exactly that
one argument (the source passes the view id of the second-to-last entry of
`metadata.ancestor_views`). -/
def copy_doc_db_block_claim (env : Env) (ret_view_id : String) (block : Block)
    (s : DupState) : DupResult Block :=
  match lookupA block.data "view_id" with
  | none =>
    (Except.error (AppError.RecordNotFound "view_id not found in block data"), s)
  | some bv =>
    match bv.asStr with
    | none => (Except.error (AppError.RecordNotFound "view_id not a string"), s)
    | some view_id_str =>
      match env.store view_id_str with
      | none => (Except.ok block, s)
      | some md =>
        match md.2 with
        | PublishedBlob.docBlob _ => (Except.error AppError.ParseErr, s)
        | PublishedBlob.dbBlob db_payload =>
          match md.1.ancestor_views.reverse.get? 1 with
          | none =>
            (Except.error (AppError.RecordNotFound "ancestor_views not found"), s)
          | some _ =>
            bindR (genFresh s) fun new_block_view_id s =>
            bindR (genFresh s) fun new_db_folder_view_id s =>
            bindR (genFresh s) fun new_db_id s =>
            bindR (deep_copy_database_txn env view_id_str
                new_db_folder_view_id new_db_id db_payload md.1 s) fun nfdv s =>
            bindR (pushViewToAdd { nfdv with parent_view_id := ret_view_id } s)
              fun _ s =>
            let dvid := new_folder_view env new_block_view_id md.1.view
              md.1.view.layout
            bindR (pushViewToAdd { dvid with parent_view_id := new_db_folder_view_id } s)
              fun _ s =>
            match lookupA s.workspace_databases new_db_id with
            | none =>
              (Except.error (AppError.RecordNotFound "workspace database not found"), s)
            | some linked =>
              let wsdbs' := updateA s.workspace_databases new_db_id
                (linked ++ [new_block_view_id])
              let s := { s with workspace_databases := wsdbs' }
              let data1 := updateA block.data "view_id" (Json.str new_block_view_id)
              match lookupA data1 "parent_id" with
              | none =>
                (Except.error (AppError.RecordNotFound
                  "parent_id not found in block data"), s)
              | some _ =>
                let data2 := updateA data1 "parent_id"
                  (Json.str new_db_folder_view_id)
                (Except.ok { block with data := data2 }, s)

/-- The C2 grid block: its `data.view_id` is `bv`. -/
def gridBlockC2 : Block :=
  { ty := "grid",
    data := [("view_id", Json.str "bv"), ("parent_id", Json.str "pp")] }

/-- The C2 published database metadata: `ancestor_views` ends with
`[... , pv, leaf]`, so the second-to-last ancestor's view id is `pv`, which
differs from the block's `view_id` (`bv`). -/
def dbMetaC2 : PublishViewMetaData :=
  { view := PublishViewInfo.mk "bv" "DBView" none ViewLayout.Grid none none,
    child_views := [],
    ancestor_views :=
      [PublishViewInfo.mk "pv" "Parent" none ViewLayout.Grid none none,
       PublishViewInfo.mk "leaf" "Leaf" none ViewLayout.Grid none none] }

/-- The C2 published database payload: its only view has id `pv` (the
second-to-last ancestor), and no extra visible views. -/
def dbDataC2 : PublishDatabaseData :=
  { database_collab :=
      { database_id := "olddb", fields_id := "olddb",
        views := some [{ id := "pv", database_id := "olddb",
                         layout := DatabaseLayout.Grid, row_orders := [] }] },
    database_row_collabs := [], visible_database_view_ids := [] }

/-- The C2 environment: the block's `view_id` (`bv`) is published with the
payload and metadata above. -/
def envC2 : Env :=
  { store := fun x =>
      if x = "bv" then some (dbMetaC2, PublishedBlob.dbBlob dbDataC2) else none,
    dest_workspace_id := "ws", dest_view_id := "dv", duplicator_uid := 1,
    ts_now := 5, ws_db_oid := "wo", dest_wsdb := [] }

/-- Counterexample to C2 as stated.  On the concrete block above, the source
invokes the database deep-copy with `old_view_id = "pv"` (the second-to-last
ancestor view id) and succeeds, while the claim's reading (`old_view_id` = the
block's `view_id = "bv"`) would retain no database view and fail with
`RecordNotFound("no (visible) views found in database")`.  Hence the database
deep-copy is not invoked with the block's `view_id`. -/
theorem C2_counterexample :
    (copy_doc_db_block envC2 "rid" gridBlockC2 initState).2.calls =
      [DbCall.mk "pv" "new-1" "new-2"] ∧
    ("pv" : String) ≠ "bv" ∧
    (∃ b', (copy_doc_db_block envC2 "rid" gridBlockC2 initState).1 =
      Except.ok b') ∧
    (copy_doc_db_block_claim envC2 "rid" gridBlockC2 initState).1 =
      Except.error (AppError.RecordNotFound
        "no (visible) views found in database") :=
  ⟨rfl, by decide, ⟨_, rfl⟩, rfl⟩

/-- Frame of the first view-rewrite loop: it never touches the transaction
buffer, the call log, the ref map or the workspace-database map (it only draws
fresh ids and pushes sibling folder views). -/
theorem rewriteDbViews_frame (env : Env) (o n d : String)
    (meta : PublishViewMetaData) (vi : List (String × PublishViewInfo)) :
    ∀ (vs : List DbView) (s : DupState) (r : Except AppError
        (List DbView × List String × Option View)) (s1 : DupState),
    rewriteDbViews env o n d meta vi vs s = (r, s1) →
    s1.trace = s.trace ∧ s1.calls = s.calls ∧
    s1.duplicated_refs = s.duplicated_refs ∧
    s1.workspace_databases = s.workspace_databases := by
  intro vs
  induction vs with
  | nil =>
    intro s r s1 h
    simp only [rewriteDbViews] at h
    cases h
    exact ⟨rfl, rfl, rfl, rfl⟩
  | cons v rest ih =>
    intro s r s1 h
    simp only [rewriteDbViews] at h
    split at h
    · simp only [bindR] at h
      split at h
      next a s2 heq =>
        have h1 := ih _ _ _ heq
        cases h
        simpa using h1
      next e s2 heq =>
        have h1 := ih _ _ _ heq
        cases h
        simpa using h1
    · split at h
      · cases h
        exact ⟨rfl, rfl, rfl, rfl⟩
      · simp only [genFresh, bindR, pushViewToAdd] at h
        split at h
        next a s2 heq =>
          have h1 := ih _ _ _ heq
          cases h
          simpa using h1
        next e s2 heq =>
          have h1 := ih _ _ _ heq
          cases h
          simpa using h1

/-- The duplication state after the call-log entry and the row-cloning pass of
`deep_copy_database_txn`. -/
def dbtxnMidState (o n d : String) (pd : PublishDatabaseData) (s : DupState) :
    DupState :=
  { s with calls := s.calls ++ [DbCall.mk o n d],
           gen := s.gen + pd.database_row_collabs.length,
           trace := s.trace ++ rowEvents d s.gen pd.database_row_collabs }

/-- Elimination principle for a successful `deep_copy_database_txn`: it
exposes the intermediate data of the run (the database's views, the retained
subset, the rewritten views and linked-view ids, the row-order rewrite, and the
exact final state). -/
theorem dbtxn_ok_elim {env : Env} {o n d : String} {pd : PublishDatabaseData}
    {meta : PublishViewMetaData} {s : DupState} {v : View} {s' : DupState}
    (h : deep_copy_database_txn env o n d pd meta s = (Except.ok v, s'))
    {C : Prop}
    (k : ∀ (allViews : List DbView) (retained : List DbView)
        (views1 : List DbView) (ids : List String) (s1 : DupState)
        (views2 : List DbView),
      pd.database_collab.views = some allViews →
      allViews.filter (retainFilter o pd) = retained →
      retained ≠ [] →
      rewriteDbViews env o n d meta (view_info_by_view_id meta) retained
        (dbtxnMidState o n d pd s) = (Except.ok (views1, ids, some v), s1) →
      rewriteAllRowOrders (cloneRowsShape d s.gen pd.database_row_collabs)
        views1 = Except.ok views2 →
      s' = { s1 with
        workspace_databases := insertA s1.workspace_databases d ids,
        trace := s1.trace ++ [Event.insert d CollabType.Database
          (CollabPayload.db (DatabaseBody.mk d d (some views2)))] } →
      C) : C := by
  unfold deep_copy_database_txn at h
  simp only [recordDbCall, bindR, cloneRows_eq] at h
  split at h
  · simp at h
  next allViews heqv =>
    split at h
    next heqf => simp at h
    next rv0 rvrest heqf =>
      split at h
      next a s1 heq2 =>
        split at h
        · simp at h
        next sel heq3 =>
          rcases hro : rewriteAllRowOrders
              (cloneRowsShape d s.gen pd.database_row_collabs) a.1 with e | views2
          · simp [liftE, bindR, hro] at h
          · simp only [liftE, bindR, hro, setWsDb, insertCollab] at h
            rw [Prod.mk.injEq] at h
            obtain ⟨hv, hs'⟩ := h
            rw [Except.ok.injEq] at hv
            refine k allViews (rv0 :: rvrest) a.1 a.2.1 s1 views2 heqv heqf
              (by simp) ?_ hro ?_
            · rw [← hv, ← heq3]
              exact heq2
            · exact hs'.symm
      next e s1 heq2 => simp at h

/-- C2 (amended).  For every grid/board/calendar block whose
`block.data.view_id` has published database data, the database deep-copy is
invoked with `old_view_id` equal to the view id of the *second-to-last entry
of `metadata.ancestor_views`* (not the block's own `view_id` as claimed), with
a freshly allocated `new_view_id = new_db_folder_view_id` and a fresh
`new_db_id` (the fresh draws are the block view id, then the folder view id,
then the database id), and the returned database-folder view is pushed into
`views_to_add` with `parent_view_id` set to the enclosing document's new view
id. -/
theorem C2_amended (env : Env) (rid : String) (b : Block) (s : DupState)
    (b' : Block) (s' : DupState) (vid : String) (meta : PublishViewMetaData)
    (pdata : PublishDatabaseData)
    (hv : lookupA b.data "view_id" = some (Json.str vid))
    (hs : env.store vid = some (meta, PublishedBlob.dbBlob pdata))
    (hr : copy_doc_db_block env rid b s = (Except.ok b', s')) :
    ∃ second_last, meta.ancestor_views.reverse.get? 1 = some second_last ∧
      ∃ ret s2,
        deep_copy_database_txn env second_last.view_id (freshId (s.gen + 1))
          (freshId (s.gen + 2)) pdata meta { s with gen := s.gen + 3 } =
          (Except.ok ret, s2) ∧
        { ret with parent_view_id := rid } ∈ s'.views_to_add ∧
        s'.calls = s.calls ++ [DbCall.mk second_last.view_id
          (freshId (s.gen + 1)) (freshId (s.gen + 2))] := by
  unfold copy_doc_db_block at hr
  simp only [hv, Json.asStr, hs] at hr
  split at hr
  · simp at hr
  next sl heqa =>
    simp only [genFresh, bindR] at hr
    split at hr
    next ret s2 heqd =>
      refine ⟨sl, heqa, ret, s2, heqd, ?_⟩
      refine dbtxn_ok_elim heqd ?_
      intro allViews retained views1 ids s1 views2 h1 h2 h3 h4 h5 h6
      obtain ⟨ht1, hc1, hd1, hw1⟩ :=
        rewriteDbViews_frame env sl.view_id _ _ meta _ _ _ _ _ h4
      simp only [pushViewToAdd, bindR] at hr
      split at hr
      · simp at hr
      next linked heql =>
        split at hr
        · simp at hr
        next pv heqp =>
          rw [Prod.mk.injEq] at hr
          obtain ⟨hb', hs'⟩ := hr
          constructor
          · rw [← hs']
            simp [List.mem_append]
          · rw [← hs']
            simp only [h6, hc1, dbtxnMidState]
    next e s2 heqd => simp at hr

/-- Witness for C2 (amended) at the concrete C2 input. -/
theorem C2_amended_witness :
    ∃ second_last,
      dbMetaC2.ancestor_views.reverse.get? 1 = some second_last ∧
      ∃ ret s2,
        deep_copy_database_txn envC2 second_last.view_id (freshId 1)
          (freshId 2) dbDataC2 dbMetaC2 { initState with gen := 3 } =
          (Except.ok ret, s2) ∧
        { ret with parent_view_id := "rid" } ∈
          ((copy_doc_db_block envC2 "rid" gridBlockC2 initState).2).views_to_add ∧
        ((copy_doc_db_block envC2 "rid" gridBlockC2 initState).2).calls =
          initState.calls ++ [DbCall.mk second_last.view_id (freshId 1)
            (freshId 2)] :=
  C2_amended envC2 "rid" gridBlockC2 initState
    { ty := "grid",
      data := [("view_id", Json.str "new-0"), ("parent_id", Json.str "new-1")] }
    ((copy_doc_db_block envC2 "rid" gridBlockC2 initState).2)
    "bv" dbMetaC2 dbDataC2 rfl rfl rfl

/-- The first view-rewrite loop returns the linked-view id list exactly as the
ids of the rewritten views, and when it finds the main view the fresh main
view id is among them. -/
theorem rewriteDbViews_ids (env : Env) (o n d : String)
    (meta : PublishViewMetaData) (vi : List (String × PublishViewInfo)) :
    ∀ (vs : List DbView) (s : DupState) (views1 : List DbView)
      (ids : List String) (selOpt : Option View) (s1 : DupState),
    rewriteDbViews env o n d meta vi vs s =
      (Except.ok (views1, ids, selOpt), s1) →
    ids = views1.map DbView.id ∧ (∀ sv, selOpt = some sv → n ∈ ids) := by
  intro vs
  induction vs with
  | nil =>
    intro s views1 ids selOpt s1 h
    simp only [rewriteDbViews] at h
    simp only [Prod.mk.injEq, Except.ok.injEq] at h
    obtain ⟨⟨hv1, hid, hsel⟩, -⟩ := h
    subst hv1; subst hid; subst hsel
    exact ⟨rfl, by intro sv hsv; cases hsv⟩
  | cons v rest ih =>
    intro s views1 ids selOpt s1 h
    simp only [rewriteDbViews] at h
    split at h
    · simp only [bindR] at h
      split at h
      next a s2 heq =>
        simp only [Prod.mk.injEq, Except.ok.injEq] at h
        obtain ⟨⟨hv1, hid, hsel⟩, -⟩ := h
        obtain ⟨hm, -⟩ := ih _ a.1 a.2.1 a.2.2 s2 heq
        subst hv1; subst hid; subst hsel
        refine ⟨by simp [hm], ?_⟩
        intro sv hsv
        simp
      next e s2 heq => simp at h
    · split at h
      · simp at h
      · simp only [genFresh, bindR, pushViewToAdd] at h
        split at h
        next a s2 heq =>
          simp only [Prod.mk.injEq, Except.ok.injEq] at h
          obtain ⟨⟨hv1, hid, hsel⟩, -⟩ := h
          obtain ⟨hm, hsel2⟩ := ih _ a.1 a.2.1 a.2.2 s2 heq
          subst hv1; subst hid; subst hsel
          refine ⟨by simp [hm], ?_⟩
          intro sv hsv
          exact List.mem_cons_of_mem _ (hsel2 sv hsv)
        next e s2 heq => simp at h

/-- The row-order rewrite keeps every view's id. -/
theorem rewriteAllRowOrders_ids (m : List (String × RowInstance)) :
    ∀ (vs vs' : List DbView), rewriteAllRowOrders m vs = Except.ok vs' →
    vs'.map DbView.id = vs.map DbView.id := by
  intro vs
  induction vs with
  | nil =>
    intro vs' h
    simp only [rewriteAllRowOrders] at h
    rw [Except.ok.injEq] at h
    subst h
    rfl
  | cons v rest ih =>
    intro vs' h
    simp only [rewriteAllRowOrders] at h
    split at h
    · simp at h
    next ros heq1 =>
      split at h
      · simp at h
      next rest' heq2 =>
        rw [Except.ok.injEq] at h
        subst h
        simp [ih rest' heq2]

/-! Claim C6: the workspace-database link list. -/

/-- C6.  For every database duplicated in a run — whether as the root or
embedded in a document — `workspace_databases[new_db_id]` is a non-empty list
after the duplication state is finalised.  First conjunct (every
`deep_copy_database_txn`, which is how both the root-database path and the
embedded path duplicate a database): the entry holds exactly the ids of the
views stored in the inserted database collab — the main duplicated view's new
id plus the new id of every retained sibling view — and contains the main new
view id.  Second conjunct (embedded databases): after the enclosing block step
the entry additionally ends with the in-document block view id. -/
theorem C6_workspace_databases_nonempty :
    (∀ (env : Env) (o n d : String) (pd : PublishDatabaseData)
       (meta : PublishViewMetaData) (s : DupState) (v : View) (s' : DupState),
      deep_copy_database_txn env o n d pd meta s = (Except.ok v, s') →
      ∃ ids views2,
        lookupA s'.workspace_databases d = some ids ∧ ids ≠ [] ∧ n ∈ ids ∧
        Event.insert d CollabType.Database
          (CollabPayload.db (DatabaseBody.mk d d (some views2))) ∈ s'.trace ∧
        ids = views2.map DbView.id) ∧
    (∀ (env : Env) (rid : String) (b : Block) (s : DupState) (b' : Block)
       (s' : DupState) (vid : String) (meta : PublishViewMetaData)
       (pd : PublishDatabaseData),
      lookupA b.data "view_id" = some (Json.str vid) →
      env.store vid = some (meta, PublishedBlob.dbBlob pd) →
      copy_doc_db_block env rid b s = (Except.ok b', s') →
      ∃ ids,
        lookupA s'.workspace_databases (freshId (s.gen + 2)) =
          some (ids ++ [freshId s.gen]) ∧
        freshId (s.gen + 1) ∈ ids ∧ ids ≠ []) := by
  constructor
  · intro env o n d pd meta s v s' h
    refine dbtxn_ok_elim h ?_
    intro allViews retained views1 ids s1 views2 h1 h2 h3 h4 h5 h6
    obtain ⟨hm, hsel⟩ := rewriteDbViews_ids env o n d meta _ _ _ _ _ _ _ h4
    have hn : n ∈ ids := hsel v rfl
    refine ⟨ids, views2, ?_, ?_, hn, ?_, ?_⟩
    · rw [h6]
      exact lookupA_insertA_self _ _ _
    · intro hnil
      rw [hnil] at hn
      cases hn
    · rw [h6]
      simp
    · rw [hm, ← rewriteAllRowOrders_ids _ _ _ h5]
  · intro env rid b s b' s' vid meta pd hv hs hr
    unfold copy_doc_db_block at hr
    simp only [hv, Json.asStr, hs] at hr
    split at hr
    · simp at hr
    next sl heqa =>
      simp only [genFresh, bindR] at hr
      split at hr
      next ret s2 heqd =>
        refine dbtxn_ok_elim heqd ?_
        intro allViews retained views1 ids0 s1 views2 h1 h2 h3 h4 h5 h6
        obtain ⟨hm, hsel⟩ := rewriteDbViews_ids env sl.view_id _ _ meta _ _ _
          _ _ _ _ h4
        have hn : freshId (s.gen + 1) ∈ ids0 := hsel ret rfl
        simp only [pushViewToAdd, bindR] at hr
        split at hr
        · next heql =>
            rw [h6] at heql
            simp only [lookupA_insertA_self] at heql
            cases heql
        next linked heql =>
          rw [h6] at heql
          rw [lookupA_insertA_self] at heql
          rw [Option.some.injEq] at heql
          subst heql
          split at hr
          · simp at hr
          next pv heqp =>
            rw [Prod.mk.injEq] at hr
            obtain ⟨hb', hs'⟩ := hr
            refine ⟨ids0, ?_, hn, ?_⟩
            · rw [← hs']
              simp only [h6]
              exact lookupA_updateA_self _ _ _ _ (lookupA_insertA_self _ _ _)
            · intro hnil
              rw [hnil] at hn
              cases hn
      next e s2 heqd => simp at hr

/-- Witness for C6 at concrete inputs: a direct database duplication and an
embedded grid block. -/
theorem C6_workspace_databases_nonempty_witness :
    (∃ ids views2,
      lookupA ((deep_copy_database_txn envC2 "pv" "nv" "nd" dbDataC2 dbMetaC2
          initState).2).workspace_databases "nd" = some ids ∧
      ids ≠ [] ∧ ("nv" : String) ∈ ids ∧
      Event.insert "nd" CollabType.Database
          (CollabPayload.db (DatabaseBody.mk "nd" "nd" (some views2))) ∈
        ((deep_copy_database_txn envC2 "pv" "nv" "nd" dbDataC2 dbMetaC2
          initState).2).trace ∧
      ids = views2.map DbView.id) ∧
    (∃ ids,
      lookupA ((copy_doc_db_block envC2 "rid" gridBlockC2
          initState).2).workspace_databases (freshId (initState.gen + 2)) =
        some (ids ++ [freshId initState.gen]) ∧
      freshId (initState.gen + 1) ∈ ids ∧ ids ≠ []) :=
  ⟨C6_workspace_databases_nonempty.1 envC2 "pv" "nv" "nd" dbDataC2 dbMetaC2
      initState (new_folder_view envC2 "nv" dbMetaC2.view ViewLayout.Grid) _ rfl,
   C6_workspace_databases_nonempty.2 envC2 "rid" gridBlockC2 initState
      { ty := "grid",
        data := [("view_id", Json.str "new-0"), ("parent_id", Json.str "new-1")] }
      _ "bv" dbMetaC2 dbDataC2 rfl rfl rfl⟩

/-! Claim C3: row-order integrity machinery. -/

theorem forall2_trans {α β γ : Type} {r : α → β → Prop} {q : β → γ → Prop}
    {p : α → γ → Prop} (h : ∀ a b c, r a b → q b c → p a c) :
    ∀ {l1 : List α} {l2 : List β} {l3 : List γ},
    List.Forall₂ r l1 l2 → List.Forall₂ q l2 l3 → List.Forall₂ p l1 l3 := by
  intro l1 l2 l3 h12
  induction h12 generalizing l3 with
  | nil =>
    intro h23
    cases h23
    exact List.Forall₂.nil
  | cons hab htl ih =>
    intro h23
    cases h23 with
    | cons hbc htl2 => exact List.Forall₂.cons (h _ _ _ hab hbc) (ih htl2)

theorem forall2_mem_right {α β : Type} {r : α → β → Prop} :
    ∀ {l1 : List α} {l2 : List β}, List.Forall₂ r l1 l2 →
    ∀ b ∈ l2, ∃ a ∈ l1, r a b := by
  intro l1 l2 h
  induction h with
  | nil =>
    intro b hb
    cases hb
  | cons hab htl ih =>
    intro b hb
    rcases List.mem_cons.mp hb with hb | hb
    · exact ⟨_, List.mem_cons_self _ _, hb ▸ hab⟩
    · obtain ⟨a, ha, hr⟩ := ih b hb
      exact ⟨a, List.mem_cons_of_mem _ ha, hr⟩

/-- The first view-rewrite loop does not touch any view's row orders. -/
theorem rewriteDbViews_row_orders (env : Env) (o n d : String)
    (meta : PublishViewMetaData) (vi : List (String × PublishViewInfo)) :
    ∀ (vs : List DbView) (s : DupState) (views1 : List DbView)
      (ids : List String) (selOpt : Option View) (s1 : DupState),
    rewriteDbViews env o n d meta vi vs s =
      (Except.ok (views1, ids, selOpt), s1) →
    List.Forall₂ (fun v0 v1 => v1.row_orders = v0.row_orders) vs views1 := by
  intro vs
  induction vs with
  | nil =>
    intro s views1 ids selOpt s1 h
    simp only [rewriteDbViews] at h
    simp only [Prod.mk.injEq, Except.ok.injEq] at h
    obtain ⟨⟨hv1, -, -⟩, -⟩ := h
    subst hv1
    exact List.Forall₂.nil
  | cons v rest ih =>
    intro s views1 ids selOpt s1 h
    simp only [rewriteDbViews] at h
    split at h
    · simp only [bindR] at h
      split at h
      next a s2 heq =>
        simp only [Prod.mk.injEq, Except.ok.injEq] at h
        obtain ⟨⟨hv1, -, -⟩, -⟩ := h
        subst hv1
        exact List.Forall₂.cons rfl (ih _ a.1 a.2.1 a.2.2 s2 heq)
      next e s2 heq => simp at h
    · split at h
      · simp at h
      · simp only [genFresh, bindR, pushViewToAdd] at h
        split at h
        next a s2 heq =>
          simp only [Prod.mk.injEq, Except.ok.injEq] at h
          obtain ⟨⟨hv1, -, -⟩, -⟩ := h
          subst hv1
          exact List.Forall₂.cons rfl (ih _ a.1 a.2.1 a.2.2 s2 heq)
        next e s2 heq => simp at h

/-- Success of the per-view row-order rewrite: the output row orders are the
input ones with each id replaced by the matching row collab's new object id. -/
theorem rewriteRowOrdersList_spec (m : List (String × RowInstance)) :
    ∀ (ros ros' : List RowOrder), rewriteRowOrdersList m ros = Except.ok ros' →
    List.Forall₂ (fun ro ro' => ∃ inst, lookupA m ro.id = some inst ∧
      ro'.id = inst.object_id) ros ros' := by
  intro ros
  induction ros with
  | nil =>
    intro ros' h
    simp only [rewriteRowOrdersList] at h
    rw [Except.ok.injEq] at h
    subst h
    exact List.Forall₂.nil
  | cons ro rest ih =>
    intro ros' h
    simp only [rewriteRowOrdersList] at h
    split at h
    · simp at h
    next inst heq1 =>
      split at h
      · simp at h
      next rest' heq2 =>
        rw [Except.ok.injEq] at h
        subst h
        exact List.Forall₂.cons ⟨inst, heq1, rfl⟩ (ih rest' heq2)

/-- Success of the all-views row-order rewrite, view by view. -/
theorem rewriteAllRowOrders_spec (m : List (String × RowInstance)) :
    ∀ (vs vs' : List DbView), rewriteAllRowOrders m vs = Except.ok vs' →
    List.Forall₂ (fun v0 v1 =>
      List.Forall₂ (fun ro ro' => ∃ inst, lookupA m ro.id = some inst ∧
        ro'.id = inst.object_id) v0.row_orders v1.row_orders) vs vs' := by
  intro vs
  induction vs with
  | nil =>
    intro vs' h
    simp only [rewriteAllRowOrders] at h
    rw [Except.ok.injEq] at h
    subst h
    exact List.Forall₂.nil
  | cons v rest ih =>
    intro vs' h
    simp only [rewriteAllRowOrders] at h
    split at h
    · simp at h
    next ros heq1 =>
      split at h
      · simp at h
      next rest' heq2 =>
        rw [Except.ok.injEq] at h
        subst h
        exact List.Forall₂.cons (by simpa using rewriteRowOrdersList_spec m _ _ heq1)
          (ih rest' heq2)

/-- Every row instance in the clone map was inserted: its insert event is
among the row events of the cloning pass. -/
theorem cloneRowsShape_mem_events (dd : String) :
    ∀ (rows : List (String × RowData)) (g : Nat) (k : String)
      (inst : RowInstance),
    lookupA (cloneRowsShape dd g rows) k = some inst →
    Event.insert inst.object_id CollabType.DatabaseRow
      (CollabPayload.row inst.data) ∈ rowEvents dd g rows := by
  intro rows
  induction rows with
  | nil =>
    intro g k inst h
    simp [cloneRowsShape, lookupA] at h
  | cons hd rest ih =>
    intro g k inst h
    cases hd with
    | mk kid r =>
      simp only [cloneRowsShape, lookupA] at h
      split at h
      · rw [Option.some.injEq] at h
        subst h
        simp [rowEvents]
      · exact List.mem_cons_of_mem _ (ih (g + 1) k inst h)

/-- The clone map has exactly the keys of the published row map. -/
theorem cloneRowsShape_lookup_none (dd : String) :
    ∀ (rows : List (String × RowData)) (g : Nat) (k : String),
    lookupA (cloneRowsShape dd g rows) k = none ↔ lookupA rows k = none := by
  intro rows
  induction rows with
  | nil =>
    intro g k
    simp [cloneRowsShape, lookupA]
  | cons hd rest ih =>
    intro g k
    cases hd with
    | mk kid r =>
      simp only [cloneRowsShape, lookupA]
      split
      · simp
      · exact ih (g + 1) k

/-- Failure of the per-view row-order rewrite: a missing row map entry makes
it fail with `RecordNotFound("row not found: <id>")` for a missing id. -/
theorem rewriteRowOrdersList_fail (m : List (String × RowInstance)) :
    ∀ (ros : List RowOrder), (∃ ro ∈ ros, lookupA m ro.id = none) →
    ∃ rid, rewriteRowOrdersList m ros =
      Except.error (AppError.RecordNotFound ("row not found: " ++ rid)) ∧
      lookupA m rid = none ∧ ∃ ro ∈ ros, ro.id = rid := by
  intro ros
  induction ros with
  | nil =>
    intro h
    obtain ⟨ro, hmem, -⟩ := h
    cases hmem
  | cons ro rest ih =>
    intro h
    cases hl : lookupA m ro.id with
    | none =>
      refine ⟨ro.id, ?_, hl, ro, List.mem_cons_self _ _, rfl⟩
      simp only [rewriteRowOrdersList, hl]
    | some inst =>
      obtain ⟨ro', hmem, hnone⟩ := h
      rcases List.mem_cons.mp hmem with hro | hro
      · rw [hro] at hnone
        rw [hnone] at hl
        cases hl
      · obtain ⟨rid, heq, hn, ro'', hmem'', hid⟩ := ih ⟨ro', hro, hnone⟩
        refine ⟨rid, ?_, hn, ro'', List.mem_cons_of_mem _ hmem'', hid⟩
        simp only [rewriteRowOrdersList, hl, heq]

/-- Totality of the per-view row-order rewrite when every row is present. -/
theorem rewriteRowOrdersList_total (m : List (String × RowInstance)) :
    ∀ (ros : List RowOrder), (∀ ro ∈ ros, lookupA m ro.id ≠ none) →
    ∃ ros', rewriteRowOrdersList m ros = Except.ok ros' := by
  intro ros
  induction ros with
  | nil =>
    intro _
    exact ⟨[], rfl⟩
  | cons ro rest ih =>
    intro h
    cases hl : lookupA m ro.id with
    | none => exact absurd hl (h ro (List.mem_cons_self _ _))
    | some inst =>
      obtain ⟨rest', heq⟩ := ih (fun r hr => h r (List.mem_cons_of_mem _ hr))
      refine ⟨{ ro with id := inst.object_id } :: rest', ?_⟩
      simp only [rewriteRowOrdersList, hl, heq]

/-- Failure of the all-views row-order rewrite under a missing row. -/
theorem rewriteAllRowOrders_fail (m : List (String × RowInstance)) :
    ∀ (vs : List DbView),
    (∃ v ∈ vs, ∃ ro ∈ v.row_orders, lookupA m ro.id = none) →
    ∃ rid, rewriteAllRowOrders m vs =
      Except.error (AppError.RecordNotFound ("row not found: " ++ rid)) ∧
      lookupA m rid = none ∧
      ∃ v ∈ vs, ∃ ro ∈ v.row_orders, ro.id = rid := by
  intro vs
  induction vs with
  | nil =>
    intro h
    obtain ⟨v, hmem, -⟩ := h
    cases hmem
  | cons v rest ih =>
    intro h
    by_cases hA : ∃ ro ∈ v.row_orders, lookupA m ro.id = none
    · obtain ⟨rid, heq, hn, ro, hmem, hid⟩ := rewriteRowOrdersList_fail m _ hA
      refine ⟨rid, ?_, hn, v, List.mem_cons_self _ _, ro, hmem, hid⟩
      simp only [rewriteAllRowOrders, heq]
    · push_neg at hA
      obtain ⟨ros', hok⟩ := rewriteRowOrdersList_total m _ hA
      have hrest : ∃ v' ∈ rest, ∃ ro ∈ v'.row_orders, lookupA m ro.id = none := by
        obtain ⟨v', hv', ro', hro', hn'⟩ := h
        rcases List.mem_cons.mp hv' with hv' | hv'
        · exact absurd hn' (hA ro' (hv' ▸ hro'))
        · exact ⟨v', hv', ro', hro', hn'⟩
      obtain ⟨rid, heq, hn, v'', hmem'', hw⟩ := ih hrest
      refine ⟨rid, ?_, hn, v'', List.mem_cons_of_mem _ hmem'', hw⟩
      simp only [rewriteAllRowOrders, hok, heq]

/-- Totality of the first view-rewrite loop when every non-main retained view
has metadata: it succeeds, finds the main view whenever one is present, and
keeps all row orders. -/
theorem rewriteDbViews_total (env : Env) (o n d : String)
    (meta : PublishViewMetaData) (vi : List (String × PublishViewInfo)) :
    ∀ (vs : List DbView) (s : DupState),
    (∀ v ∈ vs, v.id ≠ o → lookupA vi v.id ≠ none) →
    ∃ views1 ids selOpt s1,
      rewriteDbViews env o n d meta vi vs s =
        (Except.ok (views1, ids, selOpt), s1) ∧
      ((∃ v ∈ vs, v.id = o) → selOpt.isSome) ∧
      List.Forall₂ (fun v0 v1 => v1.row_orders = v0.row_orders) vs views1 := by
  intro vs
  induction vs with
  | nil =>
    intro s _
    refine ⟨[], [], none, s, rfl, ?_, List.Forall₂.nil⟩
    rintro ⟨v, hmem, -⟩
    cases hmem
  | cons v rest ih =>
    intro s hm
    simp only [rewriteDbViews]
    by_cases hc : o = v.id
    · rw [if_pos hc]
      obtain ⟨views1', ids', selOpt', s1', heq, hsome', hfa'⟩ :=
        ih s (fun v' hv' => hm v' (List.mem_cons_of_mem _ hv'))
      rw [heq]
      simp only [bindR]
      refine ⟨_, _, _, _, rfl, ?_, List.Forall₂.cons rfl hfa'⟩
      intro _
      cases selOpt' <;> simp [pickLater]
    · rw [if_neg hc]
      cases hl : lookupA vi v.id with
      | none =>
        exact absurd hl (hm v (List.mem_cons_self _ _) (fun h => hc h.symm))
      | some ovm =>
        simp only [genFresh, bindR, pushViewToAdd]
        obtain ⟨views1', ids', selOpt', s1', heq, hsome', hfa'⟩ :=
          ih _ (fun v' hv' => hm v' (List.mem_cons_of_mem _ hv'))
        rw [heq]
        simp only [bindR]
        refine ⟨_, _, _, _, rfl, ?_, List.Forall₂.cons rfl hfa'⟩
        rintro ⟨v', hv', hid⟩
        rcases List.mem_cons.mp hv' with hv' | hv'
        · exact absurd (hv' ▸ hid).symm hc
        · exact hsome' ⟨v', hv', hid⟩

theorem forall2_mem_left {α β : Type} {r : α → β → Prop} :
    ∀ {l1 : List α} {l2 : List β}, List.Forall₂ r l1 l2 →
    ∀ a ∈ l1, ∃ b ∈ l2, r a b := by
  intro l1 l2 h
  induction h with
  | nil =>
    intro a ha
    cases ha
  | cons hab htl ih =>
    intro a ha
    rcases List.mem_cons.mp ha with ha | ha
    · exact ⟨_, List.mem_cons_self _ _, ha ▸ hab⟩
    · obtain ⟨b, hb, hr⟩ := ih a ha
      exact ⟨b, List.mem_cons_of_mem _ hb, hr⟩

/-- C3.  First conjunct (success): after `deep_copy_database_txn` succeeds,
the inserted database collab's views are, per retained view, the published
view with every `row_order.id` replaced through the clone map by the new
`object_id` of a row collab — so the per-view multiset of row ids is the image
of the published one — and every resulting `row_order.id` is the object id of
a `DatabaseRow` insert of the same run.  Second conjunct (failure): if a
retained view references a row id missing from the published row map (and the
rewrite reaches the row pass: the main view is retained and every retained
sibling has metadata), the run fails with
`RecordNotFound("row not found: <missing id>")`. -/
theorem C3_row_order_integrity :
    (∀ (env : Env) (o n d : String) (pd : PublishDatabaseData)
       (meta : PublishViewMetaData) (s : DupState) (v : View) (s' : DupState),
      deep_copy_database_txn env o n d pd meta s = (Except.ok v, s') →
      ∃ allViews views2,
        pd.database_collab.views = some allViews ∧
        Event.insert d CollabType.Database
          (CollabPayload.db (DatabaseBody.mk d d (some views2))) ∈ s'.trace ∧
        List.Forall₂ (fun v0 v1 =>
          List.Forall₂ (fun ro ro' =>
            ∃ inst, lookupA (cloneRowsShape d s.gen pd.database_row_collabs)
              ro.id = some inst ∧ ro'.id = inst.object_id)
            v0.row_orders v1.row_orders)
          (allViews.filter (retainFilter o pd)) views2 ∧
        (∀ v1 ∈ views2, ∀ ro ∈ v1.row_orders,
          ∃ rp, Event.insert ro.id CollabType.DatabaseRow
            (CollabPayload.row rp) ∈ s'.trace)) ∧
    (∀ (env : Env) (o n d : String) (pd : PublishDatabaseData)
       (meta : PublishViewMetaData) (s : DupState) (allViews : List DbView),
      pd.database_collab.views = some allViews →
      (∃ v ∈ allViews.filter (retainFilter o pd), ∃ ro ∈ v.row_orders,
        lookupA pd.database_row_collabs ro.id = none) →
      (∃ v ∈ allViews.filter (retainFilter o pd), v.id = o) →
      (∀ v ∈ allViews.filter (retainFilter o pd), v.id ≠ o →
        lookupA (view_info_by_view_id meta) v.id ≠ none) →
      ∃ rid, (deep_copy_database_txn env o n d pd meta s).1 =
        Except.error (AppError.RecordNotFound ("row not found: " ++ rid)) ∧
        lookupA pd.database_row_collabs rid = none) := by
  constructor
  · intro env o n d pd meta s v v' h
    refine dbtxn_ok_elim h ?_
    intro allViews retained views1 ids s1 views2 h1 h2 h3 h4 h5 h6
    have hfa1 := rewriteDbViews_row_orders env o n d meta _ _ _ _ _ _ _ h4
    have hfa2 := rewriteAllRowOrders_spec _ _ _ h5
    obtain ⟨ht1, -, -, -⟩ := rewriteDbViews_frame env o n d meta _ _ _ _ _ h4
    refine ⟨allViews, views2, h1, ?_, ?_, ?_⟩
    · rw [h6]
      simp
    · rw [h2]
      exact forall2_trans (fun a b c hab hbc => hab ▸ hbc) hfa1 hfa2
    · intro v1 hv1 ro hro
      obtain ⟨v0, hv0, hin⟩ := forall2_mem_right hfa2 v1 hv1
      obtain ⟨ro0, hro0, inst, hlk, hid⟩ := forall2_mem_right hin ro hro
      refine ⟨inst.data, ?_⟩
      rw [hid, h6]
      simp only [List.mem_append]
      left
      rw [ht1]
      simp only [dbtxnMidState, List.mem_append]
      right
      exact cloneRowsShape_mem_events d _ s.gen _ inst hlk
  · intro env o n d pd meta s allViews h1 hmiss hmain hsib
    unfold deep_copy_database_txn
    simp only [recordDbCall, bindR, cloneRows_eq, h1]
    cases hret : allViews.filter (retainFilter o pd) with
    | nil =>
      obtain ⟨v, hv, -⟩ := hmain
      rw [hret] at hv
      cases hv
    | cons rv0 rvrest =>
      rw [hret] at hmiss hmain hsib
      obtain ⟨views1, ids, selOpt, s1, heq, hsome, hfa⟩ :=
        rewriteDbViews_total env o n d meta (view_info_by_view_id meta)
          (rv0 :: rvrest) (dbtxnMidState o n d pd s) hsib
      have hsel := hsome hmain
      have hmiss1 : ∃ v1 ∈ views1, ∃ ro ∈ v1.row_orders,
          lookupA (cloneRowsShape d s.gen pd.database_row_collabs)
            ro.id = none := by
        obtain ⟨v0, hv0, ro, hro, hn⟩ := hmiss
        obtain ⟨v1, hv1, hroeq⟩ := forall2_mem_left hfa v0 hv0
        refine ⟨v1, hv1, ro, ?_, ?_⟩
        · rw [hroeq]
          exact hro
        · rw [cloneRowsShape_lookup_none]
          exact hn
      obtain ⟨rid, herr, hn, -⟩ := rewriteAllRowOrders_fail _ views1 hmiss1
      simp only [dbtxnMidState] at heq
      cases selOpt with
      | none => simp at hsel
      | some sel =>
        refine ⟨rid, ?_, ?_⟩
        · simp [heq, liftE, bindR, herr]
        · rw [← cloneRowsShape_lookup_none d _ s.gen]
          exact hn

/-- A published row for the C3 witness. -/
def rowC3 : RowData := { hasData := true, row_id := "r1", row_database_id := "olddb" }

/-- The C3 witness database view referencing the published row. -/
def viewC3 : DbView :=
  { id := "pv", database_id := "olddb", layout := DatabaseLayout.Grid,
    row_orders := [{ id := "r1" }] }

/-- The C3 witness database payload whose single view references its single
row. -/
def pdC3ok : PublishDatabaseData :=
  { database_collab :=
      { database_id := "olddb", fields_id := "olddb", views := some [viewC3] },
    database_row_collabs := [("r1", rowC3)],
    visible_database_view_ids := [] }

/-- A database view referencing a row id absent from the published row map. -/
def viewC3bad : DbView :=
  { id := "pv", database_id := "olddb", layout := DatabaseLayout.Grid,
    row_orders := [{ id := "rX" }] }

/-- The C3 witness database payload with a dangling row reference. -/
def pdC3bad : PublishDatabaseData :=
  { database_collab :=
      { database_id := "olddb", fields_id := "olddb", views := some [viewC3bad] },
    database_row_collabs := [],
    visible_database_view_ids := [] }

/-- Witness for C3 at concrete inputs: a database whose row reference
resolves, and one whose row reference is missing. -/
theorem C3_row_order_integrity_witness :
    (∃ allViews views2,
      pdC3ok.database_collab.views = some allViews ∧
      Event.insert "nd" CollabType.Database
        (CollabPayload.db (DatabaseBody.mk "nd" "nd" (some views2))) ∈
        ((deep_copy_database_txn envC2 "pv" "nv" "nd" pdC3ok dbMetaC2
          initState).2).trace ∧
      List.Forall₂ (fun v0 v1 =>
        List.Forall₂ (fun ro ro' =>
          ∃ inst, lookupA (cloneRowsShape "nd" initState.gen
            pdC3ok.database_row_collabs) ro.id = some inst ∧
            ro'.id = inst.object_id)
          v0.row_orders v1.row_orders)
        (allViews.filter (retainFilter "pv" pdC3ok)) views2 ∧
      (∀ v1 ∈ views2, ∀ ro ∈ v1.row_orders,
        ∃ rp, Event.insert ro.id CollabType.DatabaseRow (CollabPayload.row rp) ∈
          ((deep_copy_database_txn envC2 "pv" "nv" "nd" pdC3ok dbMetaC2
            initState).2).trace)) ∧
    (∃ rid,
      (deep_copy_database_txn envC2 "pv" "nv" "nd" pdC3bad dbMetaC2
        initState).1 =
        Except.error (AppError.RecordNotFound ("row not found: " ++ rid)) ∧
      lookupA pdC3bad.database_row_collabs rid = none) :=
  ⟨C3_row_order_integrity.1 envC2 "pv" "nv" "nd" pdC3ok dbMetaC2 initState
      (new_folder_view envC2 "nv" dbMetaC2.view ViewLayout.Grid) _ rfl,
   C3_row_order_integrity.2 envC2 "pv" "nv" "nd" pdC3bad dbMetaC2 initState
      [viewC3bad] rfl
      ⟨viewC3bad, by decide, { id := "rX" }, by decide, rfl⟩
      ⟨viewC3bad, by decide, rfl⟩
      (by
        intro v hv hne
        rw [show List.filter (retainFilter "pv" pdC3bad) [viewC3bad] =
          [viewC3bad] from rfl] at hv
        rw [List.mem_singleton] at hv
        rw [hv] at hne
        exact absurd rfl hne)⟩

/-! Claim C9: insert ordering machinery. -/

/-- An insert of a document, database or database-row collab (the collabs
produced by the recursive copy itself, as opposed to the folder /
workspace-database finalisation). -/
def bodyEvent : Event → Bool
  | Event.insert _ CollabType.Document _ => true
  | Event.insert _ CollabType.Database _ => true
  | Event.insert _ CollabType.DatabaseRow _ => true
  | _ => false

/-- Rows-before-database: wherever a database collab is inserted, every row id
referenced by the views it stores was inserted as a `DatabaseRow` collab at an
earlier position of the buffer. -/
def rowsBeforeDb (t : List Event) : Prop :=
  ∀ (j : Nat) (oid : String) (body : DatabaseBody) (fvs : List DbView),
    t.get? j = some (Event.insert oid CollabType.Database (CollabPayload.db body)) →
    body.views = some fvs →
    ∀ v ∈ fvs, ∀ ro ∈ v.row_orders,
      ∃ i, i < j ∧ ∃ rp, t.get? i =
        some (Event.insert ro.id CollabType.DatabaseRow (CollabPayload.row rp))

/-- A well-formed trace increment: only document/database/row inserts, with
rows preceding the database that references them. -/
def goodDelta (t : List Event) : Prop :=
  (∀ e ∈ t, bodyEvent e = true) ∧ rowsBeforeDb t

theorem rowsBeforeDb_append {t1 t2 : List Event} (h1 : rowsBeforeDb t1)
    (h2 : rowsBeforeDb t2) : rowsBeforeDb (t1 ++ t2) := by
  intro j oid body fvs hj hb v hv ro hro
  by_cases hlt : j < t1.length
  · rw [List.get?_append hlt] at hj
    obtain ⟨i, hi, rp, hget⟩ := h1 j oid body fvs hj hb v hv ro hro
    refine ⟨i, hi, rp, ?_⟩
    rw [List.get?_append (lt_trans hi hlt)]
    exact hget
  · push_neg at hlt
    rw [List.get?_append_right hlt] at hj
    obtain ⟨i, hi, rp, hget⟩ := h2 (j - t1.length) oid body fvs hj hb v hv ro hro
    refine ⟨t1.length + i, by omega, rp, ?_⟩
    rw [List.get?_append_right (by omega)]
    rw [show t1.length + i - t1.length = i from by omega]
    exact hget

theorem rowsBeforeDb_of_no_db (t : List Event)
    (h : ∀ e ∈ t, ∀ oid body,
      e ≠ Event.insert oid CollabType.Database (CollabPayload.db body)) :
    rowsBeforeDb t := by
  intro j oid body fvs hj hb v hv ro hro
  exact absurd rfl (h _ (List.get?_mem hj) oid body)

theorem goodDelta_nil : goodDelta [] :=
  ⟨fun e he => absurd he (List.not_mem_nil e),
   rowsBeforeDb_of_no_db [] (fun e he => absurd he (List.not_mem_nil e))⟩

theorem goodDelta_append {t1 t2 : List Event} (h1 : goodDelta t1)
    (h2 : goodDelta t2) : goodDelta (t1 ++ t2) := by
  refine ⟨?_, rowsBeforeDb_append h1.2 h2.2⟩
  intro e he
  rcases List.mem_append.mp he with he | he
  · exact h1.1 e he
  · exact h2.1 e he

/-- A singleton document insert is a well-formed increment. -/
theorem goodDelta_doc (oid : String) (dd : DocumentData) :
    goodDelta [Event.insert oid CollabType.Document (CollabPayload.doc dd)] := by
  refine ⟨?_, rowsBeforeDb_of_no_db _ ?_⟩
  · intro e he
    rw [List.mem_singleton] at he
    rw [he]
    rfl
  · intro e he o body
    rw [List.mem_singleton] at he
    rw [he]
    intro hcon
    cases hcon

/-- Every event of the row-cloning pass is a `DatabaseRow` insert. -/
theorem rowEvents_shape (dd : String) :
    ∀ (rows : List (String × RowData)) (g : Nat), ∀ e ∈ rowEvents dd g rows,
    ∃ o rp, e = Event.insert o CollabType.DatabaseRow (CollabPayload.row rp) := by
  intro rows
  induction rows with
  | nil =>
    intro g e he
    cases he
  | cons hd rest ih =>
    intro g e he
    cases hd with
    | mk kid r =>
      rcases List.mem_cons.mp he with he | he
      · exact ⟨_, _, he⟩
      · exact ih (g + 1) e he

/-- The row-cloning pass is a well-formed increment. -/
theorem goodDelta_rowEvents (dd : String) (rows : List (String × RowData))
    (g : Nat) : goodDelta (rowEvents dd g rows) := by
  refine ⟨?_, rowsBeforeDb_of_no_db _ ?_⟩
  · intro e he
    obtain ⟨o, rp, he'⟩ := rowEvents_shape dd rows g e he
    rw [he']
    rfl
  · intro e he o body
    obtain ⟨o', rp, he'⟩ := rowEvents_shape dd rows g e he
    rw [he']
    intro hcon
    cases hcon

theorem mem_get? {α : Type} {a : α} :
    ∀ {l : List α}, a ∈ l → ∃ i, i < l.length ∧ l.get? i = some a := by
  intro l h
  induction l with
  | nil => cases h
  | cons hd tl ih =>
    rcases List.mem_cons.mp h with h | h
    · exact ⟨0, by simp, by rw [h]; rfl⟩
    · obtain ⟨i, hi, hg⟩ := ih h
      exact ⟨i + 1, by simpa using hi, by simpa using hg⟩

/-- The rows-then-database increment of one database duplication is
well-formed: every row id stored in the inserted database's views points to a
row insert earlier in the increment. -/
theorem goodDelta_dbtxn_tail (d : String) (rows : List (String × RowData))
    (g : Nat) (views1 views2 : List DbView)
    (h5 : rewriteAllRowOrders (cloneRowsShape d g rows) views1 =
      Except.ok views2) :
    goodDelta (rowEvents d g rows ++ [Event.insert d CollabType.Database
      (CollabPayload.db (DatabaseBody.mk d d (some views2)))]) := by
  constructor
  · intro e he
    rcases List.mem_append.mp he with he | he
    · exact (goodDelta_rowEvents d rows g).1 e he
    · rw [List.mem_singleton] at he
      rw [he]
      rfl
  · intro j oid body fvs hj hb v hv ro hro
    by_cases hlt : j < (rowEvents d g rows).length
    · rw [List.get?_append hlt] at hj
      obtain ⟨o', rp, he'⟩ := rowEvents_shape d rows g _ (List.get?_mem hj)
      simp at he'
    · push_neg at hlt
      rw [List.get?_append_right hlt] at hj
      rcases hjl : j - (rowEvents d g rows).length with _ | k
      · rw [hjl] at hj
        rw [List.get?] at hj
        rw [Option.some.injEq] at hj
        have hoid : oid = d := by
          cases hj
          rfl
        have hbody : body = DatabaseBody.mk d d (some views2) := by
          cases hj
          rfl
        rw [hbody] at hb
        rw [show (DatabaseBody.mk d d (some views2)).views = some views2 from rfl,
          Option.some.injEq] at hb
        rw [← hb] at hv
        have hspec := rewriteAllRowOrders_spec _ _ _ h5
        obtain ⟨v0, hv0, hin⟩ := forall2_mem_right hspec v hv
        obtain ⟨ro0, hro0, inst, hlk, hid⟩ := forall2_mem_right hin ro hro
        have hmem := cloneRowsShape_mem_events d rows g _ inst hlk
        obtain ⟨i, hi, hg⟩ := mem_get? hmem
        refine ⟨i, by omega, inst.data, ?_⟩
        rw [List.get?_append (by omega)]
        rw [hid]
        exact hg
      · rw [hjl] at hj
        rw [List.get?] at hj
        simp at hj

/-- Every `deep_copy_database_txn` call — successful or not — only appends a
well-formed increment to the transaction buffer. -/
theorem deep_copy_database_txn_trace (env : Env) (o n d : String)
    (pd : PublishDatabaseData) (meta : PublishViewMetaData) (s : DupState)
    (r : Except AppError View) (s' : DupState)
    (h : deep_copy_database_txn env o n d pd meta s = (r, s')) :
    ∃ t, s'.trace = s.trace ++ t ∧ goodDelta t := by
  unfold deep_copy_database_txn at h
  simp only [recordDbCall, bindR, cloneRows_eq] at h
  split at h
  · rw [Prod.mk.injEq] at h
    refine ⟨rowEvents d s.gen pd.database_row_collabs, ?_,
      goodDelta_rowEvents _ _ _⟩
    rw [← h.2]
  · split at h
    · rw [Prod.mk.injEq] at h
      refine ⟨rowEvents d s.gen pd.database_row_collabs, ?_,
        goodDelta_rowEvents _ _ _⟩
      rw [← h.2]
    next rv0 rvrest heqf =>
      split at h
      next a s1 heq =>
        obtain ⟨ht1, -, -, -⟩ := rewriteDbViews_frame env o n d meta _ _ _ _ _ heq
        split at h
        · rw [Prod.mk.injEq] at h
          refine ⟨rowEvents d s.gen pd.database_row_collabs, ?_,
            goodDelta_rowEvents _ _ _⟩
          rw [← h.2, ht1]
        next sel heq3 =>
          rcases hro : rewriteAllRowOrders
              (cloneRowsShape d s.gen pd.database_row_collabs) a.1
            with e | views2
          · simp only [liftE, bindR, hro] at h
            rw [Prod.mk.injEq] at h
            refine ⟨rowEvents d s.gen pd.database_row_collabs, ?_,
              goodDelta_rowEvents _ _ _⟩
            rw [← h.2, ht1]
          · simp only [liftE, bindR, hro, setWsDb, insertCollab] at h
            rw [Prod.mk.injEq] at h
            refine ⟨rowEvents d s.gen pd.database_row_collabs ++
              [Event.insert d CollabType.Database
                (CollabPayload.db (DatabaseBody.mk d d (some views2)))], ?_,
              goodDelta_dbtxn_tail d _ s.gen a.1 views2 hro⟩
            rw [← h.2]
            simp [ht1, List.append_assoc]
      next e s1 heq =>
        obtain ⟨ht1, -, -, -⟩ := rewriteDbViews_frame env o n d meta _ _ _ _ _ heq
        rw [Prod.mk.injEq] at h
        refine ⟨rowEvents d s.gen pd.database_row_collabs, ?_,
          goodDelta_rowEvents _ _ _⟩
        rw [← h.2, ht1]

/-- Property of the recursive page-copy callback: it only appends a
well-formed increment to the transaction buffer. -/
def recTrace
    (recurse : String → String → DupState → DupResult (Option View)) : Prop :=
  ∀ (nv pid : String) (s : DupState) (r : Except AppError (Option View))
    (s' : DupState), recurse nv pid s = (r, s') →
    ∃ t, s'.trace = s.trace ++ t ∧ goodDelta t

theorem copyPageSlot_trace
    {recurse : String → String → DupState → DupResult (Option View)}
    (hrec : recTrace recurse) :
    ∀ (rv : View) (pid : Json) (s : DupState) (r : Except AppError (Json × View))
      (s' : DupState),
    copyPageSlot recurse rv pid s = (r, s') →
    ∃ t, s'.trace = s.trace ++ t ∧ goodDelta t := by
  intro rv pid s r s' h
  unfold copyPageSlot at h
  split at h
  · rw [Prod.mk.injEq] at h
    exact ⟨[], by rw [← h.2]; simp, goodDelta_nil⟩
  next p =>
    split at h
    · rw [Prod.mk.injEq] at h
      exact ⟨[], by rw [← h.2]; simp, goodDelta_nil⟩
    · rw [Prod.mk.injEq] at h
      exact ⟨[], by rw [← h.2]; simp, goodDelta_nil⟩
    · simp only [genFresh, bindR] at h
      split at h
      next res s2 heqr =>
        obtain ⟨t, ht, hg⟩ := hrec _ _ _ _ _ heqr
        split at h
        · simp only [insertRef, pushViewToAdd, bindR] at h
          rw [Prod.mk.injEq] at h
          refine ⟨t, ?_, hg⟩
          rw [← h.2]
          simpa using ht
        · simp only [insertRef, bindR] at h
          rw [Prod.mk.injEq] at h
          refine ⟨t, ?_, hg⟩
          rw [← h.2]
          simpa using ht
      next e s2 heqr =>
        obtain ⟨t, ht, hg⟩ := hrec _ _ _ _ _ heqr
        rw [Prod.mk.injEq] at h
        refine ⟨t, ?_, hg⟩
        rw [← h.2]
        simpa using ht

theorem processDeltaElem_trace
    {recurse : String → String → DupState → DupResult (Option View)}
    (hrec : recTrace recurse) :
    ∀ (rv : View) (elem : Json) (s : DupState)
      (r : Except AppError (Json × View)) (s' : DupState),
    processDeltaElem recurse rv elem s = (r, s') →
    ∃ t, s'.trace = s.trace ++ t ∧ goodDelta t := by
  intro rv elem s r s' h
  unfold processDeltaElem at h
  split at h
  · rw [Prod.mk.injEq] at h
    exact ⟨[], by rw [← h.2]; simp, goodDelta_nil⟩
  next attrs =>
    split at h
    · rw [Prod.mk.injEq] at h
      exact ⟨[], by rw [← h.2]; simp, goodDelta_nil⟩
    next mention =>
      split at h
      · split at h
        · rw [Prod.mk.injEq] at h
          exact ⟨[], by rw [← h.2]; simp, goodDelta_nil⟩
        next pid =>
          simp only [bindR] at h
          split at h
          next a s2 heq =>
            obtain ⟨t, ht, hg⟩ := copyPageSlot_trace hrec _ _ _ _ _ heq
            rw [Prod.mk.injEq] at h
            refine ⟨t, ?_, hg⟩
            rw [← h.2]
            exact ht
          next e s2 heq =>
            obtain ⟨t, ht, hg⟩ := copyPageSlot_trace hrec _ _ _ _ _ heq
            rw [Prod.mk.injEq] at h
            refine ⟨t, ?_, hg⟩
            rw [← h.2]
            exact ht
      · rw [Prod.mk.injEq] at h
        exact ⟨[], by rw [← h.2]; simp, goodDelta_nil⟩

theorem processDeltaArr_trace
    {recurse : String → String → DupState → DupResult (Option View)}
    (hrec : recTrace recurse) :
    ∀ (elems : List Json) (rv : View) (s : DupState)
      (r : Except AppError (List Json × View)) (s' : DupState),
    processDeltaArr recurse rv elems s = (r, s') →
    ∃ t, s'.trace = s.trace ++ t ∧ goodDelta t := by
  intro elems
  induction elems with
  | nil =>
    intro rv s r s' h
    simp only [processDeltaArr] at h
    rw [Prod.mk.injEq] at h
    exact ⟨[], by rw [← h.2]; simp, goodDelta_nil⟩
  | cons e rest ih =>
    intro rv s r s' h
    simp only [processDeltaArr, bindR] at h
    split at h
    next a s2 heq =>
      obtain ⟨t1, ht1, hg1⟩ := processDeltaElem_trace hrec _ _ _ _ _ heq
      split at h
      next a2 s3 heq2 =>
        obtain ⟨t2, ht2, hg2⟩ := ih _ _ _ _ heq2
        rw [Prod.mk.injEq] at h
        refine ⟨t1 ++ t2, ?_, goodDelta_append hg1 hg2⟩
        rw [← h.2, ht2, ht1, List.append_assoc]
      next e2 s3 heq2 =>
        obtain ⟨t2, ht2, hg2⟩ := ih _ _ _ _ heq2
        rw [Prod.mk.injEq] at h
        refine ⟨t1 ++ t2, ?_, goodDelta_append hg1 hg2⟩
        rw [← h.2, ht2, ht1, List.append_assoc]
    next e1 s2 heq =>
      obtain ⟨t1, ht1, hg1⟩ := processDeltaElem_trace hrec _ _ _ _ _ heq
      rw [Prod.mk.injEq] at h
      refine ⟨t1, ?_, hg1⟩
      rw [← h.2]
      exact ht1

theorem processBlockData_trace
    {recurse : String → String → DupState → DupResult (Option View)}
    (hrec : recTrace recurse) :
    ∀ (entries : List (String × Json)) (rv : View) (s : DupState)
      (r : Except AppError (List (String × Json) × View)) (s' : DupState),
    processBlockData recurse rv entries s = (r, s') →
    ∃ t, s'.trace = s.trace ++ t ∧ goodDelta t := by
  intro entries
  induction entries with
  | nil =>
    intro rv s r s' h
    simp only [processBlockData] at h
    rw [Prod.mk.injEq] at h
    exact ⟨[], by rw [← h.2]; simp, goodDelta_nil⟩
  | cons kv rest ih =>
    intro rv s r s' h
    simp only [processBlockData] at h
    split at h
    · split at h
      next elems =>
        simp only [bindR] at h
        split at h
        next a s2 heq =>
          obtain ⟨t1, ht1, hg1⟩ := processDeltaArr_trace hrec _ _ _ _ _ heq
          split at h
          next a2 s3 heq2 =>
            obtain ⟨t2, ht2, hg2⟩ := ih _ _ _ _ heq2
            rw [Prod.mk.injEq] at h
            refine ⟨t1 ++ t2, ?_, goodDelta_append hg1 hg2⟩
            rw [← h.2, ht2, ht1, List.append_assoc]
          next e2 s3 heq2 =>
            obtain ⟨t2, ht2, hg2⟩ := ih _ _ _ _ heq2
            rw [Prod.mk.injEq] at h
            refine ⟨t1 ++ t2, ?_, goodDelta_append hg1 hg2⟩
            rw [← h.2, ht2, ht1, List.append_assoc]
        next e1 s2 heq =>
          obtain ⟨t1, ht1, hg1⟩ := processDeltaArr_trace hrec _ _ _ _ _ heq
          rw [Prod.mk.injEq] at h
          refine ⟨t1, ?_, hg1⟩
          rw [← h.2]
          exact ht1
      · simp only [bindR] at h
        split at h
        next a2 s3 heq2 =>
          obtain ⟨t2, ht2, hg2⟩ := ih _ _ _ _ heq2
          rw [Prod.mk.injEq] at h
          refine ⟨t2, ?_, hg2⟩
          rw [← h.2]
          exact ht2
        next e2 s3 heq2 =>
          obtain ⟨t2, ht2, hg2⟩ := ih _ _ _ _ heq2
          rw [Prod.mk.injEq] at h
          refine ⟨t2, ?_, hg2⟩
          rw [← h.2]
          exact ht2
    · simp only [bindR] at h
      split at h
      next a2 s3 heq2 =>
        obtain ⟨t2, ht2, hg2⟩ := ih _ _ _ _ heq2
        rw [Prod.mk.injEq] at h
        refine ⟨t2, ?_, hg2⟩
        rw [← h.2]
        exact ht2
      next e2 s3 heq2 =>
        obtain ⟨t2, ht2, hg2⟩ := ih _ _ _ _ heq2
        rw [Prod.mk.injEq] at h
        refine ⟨t2, ?_, hg2⟩
        rw [← h.2]
        exact ht2

theorem processBlocks_trace
    {recurse : String → String → DupState → DupResult (Option View)}
    (hrec : recTrace recurse) :
    ∀ (blocks : List (String × Block)) (rv : View) (s : DupState)
      (r : Except AppError (List (String × Block) × View)) (s' : DupState),
    processBlocks recurse rv blocks s = (r, s') →
    ∃ t, s'.trace = s.trace ++ t ∧ goodDelta t := by
  intro blocks
  induction blocks with
  | nil =>
    intro rv s r s' h
    simp only [processBlocks] at h
    rw [Prod.mk.injEq] at h
    exact ⟨[], by rw [← h.2]; simp, goodDelta_nil⟩
  | cons bb rest ih =>
    intro rv s r s' h
    simp only [processBlocks, bindR] at h
    split at h
    next a s2 heq =>
      obtain ⟨t1, ht1, hg1⟩ := processBlockData_trace hrec _ _ _ _ _ heq
      split at h
      next a2 s3 heq2 =>
        obtain ⟨t2, ht2, hg2⟩ := ih _ _ _ _ heq2
        rw [Prod.mk.injEq] at h
        refine ⟨t1 ++ t2, ?_, goodDelta_append hg1 hg2⟩
        rw [← h.2, ht2, ht1, List.append_assoc]
      next e2 s3 heq2 =>
        obtain ⟨t2, ht2, hg2⟩ := ih _ _ _ _ heq2
        rw [Prod.mk.injEq] at h
        refine ⟨t1 ++ t2, ?_, goodDelta_append hg1 hg2⟩
        rw [← h.2, ht2, ht1, List.append_assoc]
    next e1 s2 heq =>
      obtain ⟨t1, ht1, hg1⟩ := processBlockData_trace hrec _ _ _ _ _ heq
      rw [Prod.mk.injEq] at h
      refine ⟨t1, ?_, hg1⟩
      rw [← h.2]
      exact ht1

theorem deep_copy_doc_pages_trace
    {recurse : String → String → DupState → DupResult (Option View)}
    (hrec : recTrace recurse) (doc : DocumentData) (rv : View) (s : DupState)
    (r : Except AppError (DocumentData × View)) (s' : DupState)
    (h : deep_copy_doc_pages recurse doc rv s = (r, s')) :
    ∃ t, s'.trace = s.trace ++ t ∧ goodDelta t := by
  unfold deep_copy_doc_pages at h
  simp only [bindR] at h
  split at h
  next a s2 heq =>
    obtain ⟨t1, ht1, hg1⟩ := processBlocks_trace hrec _ _ _ _ _ heq
    rw [Prod.mk.injEq] at h
    refine ⟨t1, ?_, hg1⟩
    rw [← h.2]
    exact ht1
  next e s2 heq =>
    obtain ⟨t1, ht1, hg1⟩ := processBlocks_trace hrec _ _ _ _ _ heq
    rw [Prod.mk.injEq] at h
    refine ⟨t1, ?_, hg1⟩
    rw [← h.2]
    exact ht1

theorem copy_doc_db_block_trace (env : Env) (rid : String) (b : Block)
    (s : DupState) (r : Except AppError Block) (s' : DupState)
    (h : copy_doc_db_block env rid b s = (r, s')) :
    ∃ t, s'.trace = s.trace ++ t ∧ goodDelta t := by
  unfold copy_doc_db_block at h
  split at h
  · rw [Prod.mk.injEq] at h
    exact ⟨[], by rw [← h.2]; simp, goodDelta_nil⟩
  next bv =>
    split at h
    · rw [Prod.mk.injEq] at h
      exact ⟨[], by rw [← h.2]; simp, goodDelta_nil⟩
    next vid =>
      split at h
      · rw [Prod.mk.injEq] at h
        exact ⟨[], by rw [← h.2]; simp, goodDelta_nil⟩
      next md =>
        split at h
        · rw [Prod.mk.injEq] at h
          exact ⟨[], by rw [← h.2]; simp, goodDelta_nil⟩
        next db_payload =>
          split at h
          · rw [Prod.mk.injEq] at h
            exact ⟨[], by rw [← h.2]; simp, goodDelta_nil⟩
          next second_last =>
            simp only [genFresh, bindR] at h
            split at h
            next ret s2 heqd =>
              obtain ⟨t, ht, hg⟩ :=
                deep_copy_database_txn_trace env _ _ _ _ _ _ _ _ heqd
              simp only [pushViewToAdd, bindR] at h
              split at h
              · rw [Prod.mk.injEq] at h
                refine ⟨t, ?_, hg⟩
                rw [← h.2]
                simpa using ht
              next linked heql =>
                split at h
                · rw [Prod.mk.injEq] at h
                  refine ⟨t, ?_, hg⟩
                  rw [← h.2]
                  simpa using ht
                · rw [Prod.mk.injEq] at h
                  refine ⟨t, ?_, hg⟩
                  rw [← h.2]
                  simpa using ht
            next e s2 heqd =>
              obtain ⟨t, ht, hg⟩ :=
                deep_copy_database_txn_trace env _ _ _ _ _ _ _ _ heqd
              rw [Prod.mk.injEq] at h
              refine ⟨t, ?_, hg⟩
              rw [← h.2]
              simpa using ht

theorem deep_copy_doc_databases_trace (env : Env) (rid : String) :
    ∀ (blocks : List (String × Block)) (s : DupState)
      (r : Except AppError (List (String × Block))) (s' : DupState),
    deep_copy_doc_databases env rid blocks s = (r, s') →
    ∃ t, s'.trace = s.trace ++ t ∧ goodDelta t := by
  intro blocks
  induction blocks with
  | nil =>
    intro s r s' h
    simp only [deep_copy_doc_databases] at h
    rw [Prod.mk.injEq] at h
    exact ⟨[], by rw [← h.2]; simp, goodDelta_nil⟩
  | cons bb rest ih =>
    intro s r s' h
    simp only [deep_copy_doc_databases] at h
    split at h
    · simp only [bindR] at h
      split at h
      next a s2 heq =>
        obtain ⟨t1, ht1, hg1⟩ := copy_doc_db_block_trace env _ _ _ _ _ heq
        split at h
        next a2 s3 heq2 =>
          obtain ⟨t2, ht2, hg2⟩ := ih _ _ _ heq2
          rw [Prod.mk.injEq] at h
          refine ⟨t1 ++ t2, ?_, goodDelta_append hg1 hg2⟩
          rw [← h.2, ht2, ht1, List.append_assoc]
        next e2 s3 heq2 =>
          obtain ⟨t2, ht2, hg2⟩ := ih _ _ _ heq2
          rw [Prod.mk.injEq] at h
          refine ⟨t1 ++ t2, ?_, goodDelta_append hg1 hg2⟩
          rw [← h.2, ht2, ht1, List.append_assoc]
      next e1 s2 heq =>
        obtain ⟨t1, ht1, hg1⟩ := copy_doc_db_block_trace env _ _ _ _ _ heq
        rw [Prod.mk.injEq] at h
        refine ⟨t1, ?_, hg1⟩
        rw [← h.2]
        exact ht1
    · simp only [bindR] at h
      split at h
      next a2 s3 heq2 =>
        obtain ⟨t2, ht2, hg2⟩ := ih _ _ _ heq2
        rw [Prod.mk.injEq] at h
        refine ⟨t2, ?_, hg2⟩
        rw [← h.2]
        exact ht2
      next e2 s3 heq2 =>
        obtain ⟨t2, ht2, hg2⟩ := ih _ _ _ heq2
        rw [Prod.mk.injEq] at h
        refine ⟨t2, ?_, hg2⟩
        rw [← h.2]
        exact ht2

theorem deep_copy_doc_txn_trace
    {recurse : String → String → DupState → DupResult (Option View)}
    (hrec : recTrace recurse) (env : Env) (nv : String) (doc : DocumentData)
    (meta : PublishViewMetaData) (s : DupState) (r : Except AppError View)
    (s' : DupState)
    (h : deep_copy_doc_txn recurse env nv doc meta s = (r, s')) :
    ∃ t, s'.trace = s.trace ++ t ∧ goodDelta t := by
  unfold deep_copy_doc_txn at h
  simp only [bindR] at h
  split at h
  next a s2 heq =>
    obtain ⟨t1, ht1, hg1⟩ := deep_copy_doc_pages_trace hrec _ _ _ _ _ heq
    split at h
    next a2 s3 heq2 =>
      obtain ⟨t2, ht2, hg2⟩ := deep_copy_doc_databases_trace env _ _ _ _ _ heq2
      simp only [insertCollab, bindR] at h
      rw [Prod.mk.injEq] at h
      refine ⟨t1 ++ t2 ++
        [Event.insert a.2.id CollabType.Document
          (CollabPayload.doc { a.1 with blocks := a2 })], ?_,
        goodDelta_append (goodDelta_append hg1 hg2) (goodDelta_doc _ _)⟩
      rw [← h.2]
      simp [ht2, ht1, List.append_assoc]
    next e2 s3 heq2 =>
      obtain ⟨t2, ht2, hg2⟩ := deep_copy_doc_databases_trace env _ _ _ _ _ heq2
      rw [Prod.mk.injEq] at h
      refine ⟨t1 ++ t2, ?_, goodDelta_append hg1 hg2⟩
      rw [← h.2, ht2, ht1, List.append_assoc]
  next e s2 heq =>
    obtain ⟨t1, ht1, hg1⟩ := deep_copy_doc_pages_trace hrec _ _ _ _ _ heq
    rw [Prod.mk.injEq] at h
    refine ⟨t1, ?_, hg1⟩
    rw [← h.2]
    exact ht1

theorem deep_copy_txn_trace (env : Env) :
    ∀ (fuel : Nat) (nv pid : String) (ct : CollabType) (s : DupState)
      (r : Except AppError (Option View)) (s' : DupState),
    deep_copy_txn env fuel nv pid ct s = (r, s') →
    ∃ t, s'.trace = s.trace ++ t ∧ goodDelta t := by
  intro fuel
  induction fuel with
  | zero =>
    intro nv pid ct s r s' h
    simp only [deep_copy_txn] at h
    rw [Prod.mk.injEq] at h
    exact ⟨[], by rw [← h.2]; simp, goodDelta_nil⟩
  | succ fuel ih =>
    intro nv pid ct s r s' h
    simp only [deep_copy_txn] at h
    split at h
    · rw [Prod.mk.injEq] at h
      exact ⟨[], by rw [← h.2]; simp, goodDelta_nil⟩
    next mb =>
      simp only [insertRef, bindR] at h
      split at h
      · split at h
        · rw [Prod.mk.injEq] at h
          exact ⟨[], by rw [← h.2]; simp, goodDelta_nil⟩
        next doc =>
          split at h
          next v s2 heq =>
            obtain ⟨t, ht, hg⟩ := deep_copy_doc_txn_trace
              (fun nv2 pid2 s2 r2 s2' h2 => ih nv2 pid2 CollabType.Document
                s2 r2 s2' h2) env _ _ _ _ _ _ heq
            rw [Prod.mk.injEq] at h
            refine ⟨t, ?_, hg⟩
            rw [← h.2]
            simpa using ht
          next e s2 heq =>
            obtain ⟨t, ht, hg⟩ := deep_copy_doc_txn_trace
              (fun nv2 pid2 s2 r2 s2' h2 => ih nv2 pid2 CollabType.Document
                s2 r2 s2' h2) env _ _ _ _ _ _ heq
            rw [Prod.mk.injEq] at h
            refine ⟨t, ?_, hg⟩
            rw [← h.2]
            simpa using ht
      · split at h
        · rw [Prod.mk.injEq] at h
          exact ⟨[], by rw [← h.2]; simp, goodDelta_nil⟩
        next db_payload =>
          simp only [genFresh, bindR] at h
          split at h
          next v s2 heq =>
            obtain ⟨t, ht, hg⟩ :=
              deep_copy_database_txn_trace env _ _ _ _ _ _ _ _ heq
            rw [Prod.mk.injEq] at h
            refine ⟨t, ?_, hg⟩
            rw [← h.2]
            simpa using ht
          next e s2 heq =>
            obtain ⟨t, ht, hg⟩ :=
              deep_copy_database_txn_trace env _ _ _ _ _ _ _ _ heq
            rw [Prod.mk.injEq] at h
            refine ⟨t, ?_, hg⟩
            rw [← h.2]
            simpa using ht
      · rw [Prod.mk.injEq] at h
        exact ⟨[], by rw [← h.2]; simp, goodDelta_nil⟩

/-- C9.  For every successful run: (i) wherever a database collab was
inserted, every row id referenced by its stored views was inserted as a
`DatabaseRow` collab earlier in the transaction (each database's row collabs
precede that database collab); (ii) the buffer decomposes as document /
database / row inserts, then the optional workspace-database part, then the
folder insert, then the folder broadcast — so every document, database and row
collab is inserted before the updated folder collab, and the folder broadcast
is the last event (in particular the last broadcast, after any
workspace-database broadcast). -/
theorem C9_insert_order (env : Env) (fuel : Nat) (pid : String)
    (ct : CollabType) (s' : DupState)
    (h : dup_run env fuel pid ct = (Except.ok (), s')) :
    rowsBeforeDb s'.trace ∧
    ∃ body mid fpay,
      s'.trace = body ++ mid ++
        [Event.insert env.dest_workspace_id CollabType.Folder
          (CollabPayload.folder fpay),
         Event.broadcast env.dest_workspace_id] ∧
      (∀ e ∈ body, bodyEvent e = true) ∧
      (mid = [] ∨ ∃ wpay, mid = [Event.broadcast env.ws_db_oid,
        Event.insert env.ws_db_oid CollabType.WorkspaceDatabase
          (CollabPayload.wsdb wpay)]) := by
  unfold dup_run deep_copy at h
  simp only [genFresh, bindR] at h
  split at h
  next rootOpt s1 heq1 =>
    obtain ⟨t, ht, hg⟩ := deep_copy_txn_trace env _ _ _ _ _ _ _ heq1
    have ht' : s1.trace = t := by
      rw [ht]
      rfl
    split at h
    · simp at h
    next root0 =>
      rcases hws : s1.workspace_databases with _ | ⟨w, ws⟩
      · rw [hws] at h
        simp only [insertCollab, emitBroadcast, bindR] at h
        rw [Prod.mk.injEq] at h
        have hs' : s' = _ := h.2.symm
        refine ⟨?_, t, [],
          { root0 with parent_view_id := env.dest_view_id } :: s1.views_to_add,
          ?_, hg.1, Or.inl rfl⟩
        · rw [hs']
          have htail : rowsBeforeDb
              ([Event.insert env.dest_workspace_id CollabType.Folder
                (CollabPayload.folder ({ root0 with
                  parent_view_id := env.dest_view_id } :: s1.views_to_add)),
               Event.broadcast env.dest_workspace_id]) := by
            apply rowsBeforeDb_of_no_db
            intro e he o body
            rcases List.mem_cons.mp he with he | he
            · rw [he]
              simp
            · rw [List.mem_singleton] at he
              rw [he]
              simp
          have hra := rowsBeforeDb_append hg.2 htail
          simpa [ht', List.append_assoc] using hra
        · rw [hs']
          simp [ht', List.append_assoc]
      · rw [hws] at h
        simp only [insertCollab, emitBroadcast, bindR] at h
        rw [Prod.mk.injEq] at h
        have hs' : s' = _ := h.2.symm
        refine ⟨?_, t, [Event.broadcast env.ws_db_oid,
          Event.insert env.ws_db_oid CollabType.WorkspaceDatabase
            (CollabPayload.wsdb (env.dest_wsdb ++ s1.workspace_databases))],
          { root0 with parent_view_id := env.dest_view_id } :: s1.views_to_add,
          ?_, hg.1, Or.inr ⟨_, rfl⟩⟩
        · rw [hs']
          have htail : rowsBeforeDb
              ([Event.broadcast env.ws_db_oid,
                Event.insert env.ws_db_oid CollabType.WorkspaceDatabase
                  (CollabPayload.wsdb (env.dest_wsdb ++ s1.workspace_databases)),
                Event.insert env.dest_workspace_id CollabType.Folder
                  (CollabPayload.folder ({ root0 with
                    parent_view_id := env.dest_view_id } :: s1.views_to_add)),
                Event.broadcast env.dest_workspace_id]) := by
            apply rowsBeforeDb_of_no_db
            intro e he o body
            rcases List.mem_cons.mp he with he | he
            · rw [he]
              simp
            · rcases List.mem_cons.mp he with he | he
              · rw [he]
                simp
              · rcases List.mem_cons.mp he with he | he
                · rw [he]
                  simp
                · rw [List.mem_singleton] at he
                  rw [he]
                  simp
          have hra := rowsBeforeDb_append hg.2 htail
          simpa [ht', hws, List.append_assoc] using hra
        · rw [hs']
          simp [ht', hws, List.append_assoc]
  next e s1 heq1 => simp at h

/-- A one-document publish store for the C9 witness. -/
def envC9 : Env :=
  { store := fun x =>
      if x = "root" then
        some ({ view := PublishViewInfo.mk "root" "R" none ViewLayout.Document none none,
                child_views := [], ancestor_views := [] },
          PublishedBlob.docBlob { blocks := [], meta := { text_map := none } })
      else none,
    dest_workspace_id := "ws", dest_view_id := "dv", duplicator_uid := 1,
    ts_now := 5, ws_db_oid := "wo", dest_wsdb := [] }

/-- Witness for C9 at a concrete successful run. -/
theorem C9_insert_order_witness :
    rowsBeforeDb ((dup_run envC9 1 "root" CollabType.Document).2).trace ∧
    ∃ body mid fpay,
      ((dup_run envC9 1 "root" CollabType.Document).2).trace = body ++ mid ++
        [Event.insert envC9.dest_workspace_id CollabType.Folder
          (CollabPayload.folder fpay),
         Event.broadcast envC9.dest_workspace_id] ∧
      (∀ e ∈ body, bodyEvent e = true) ∧
      (mid = [] ∨ ∃ wpay, mid = [Event.broadcast envC9.ws_db_oid,
        Event.insert envC9.ws_db_oid CollabType.WorkspaceDatabase
          (CollabPayload.wsdb wpay)]) :=
  C9_insert_order envC9 1 "root" CollabType.Document _ rfl

/-! Claim C4: reference cycles. -/

/-- A one-block document whose only content is a page mention of `p` (the
shape of the two documents of the cycle scenario). -/
def cycleDoc (blk p : String) : DocumentData :=
  { blocks := [(blk, mentionBlock (Json.str p))], meta := { text_map := none } }

/-- A publish store holding exactly two documents `a` and `b`, each mentioning
the other — a reference cycle.  All other parameters (metadata, destination
ids, user, clock, workspace-database content) are arbitrary. -/
def cycleEnv (a b blkA blkB : String) (metaA metaB : PublishViewMetaData)
    (ws dv wo : String) (uid ts : Int)
    (dwl : List (String × List String)) : Env :=
  { store := fun x =>
      if x = a then some (metaA, PublishedBlob.docBlob (cycleDoc blkA b))
      else if x = b then some (metaB, PublishedBlob.docBlob (cycleDoc blkB a))
      else none,
    dest_workspace_id := ws, dest_view_id := dv, duplicator_uid := uid,
    ts_now := ts, ws_db_oid := wo, dest_wsdb := dwl }

/-- The document inserts of a transaction buffer, in order. -/
def docInserts (t : List Event) : List (String × DocumentData) :=
  t.filterMap (fun e => match e with
    | Event.insert o CollabType.Document (CollabPayload.doc dd) => some (o, dd)
    | _ => none)

/-- C4.  For every published set in which document `a` mentions document `b`
and `b` mentions `a` (and any fuel at least 2, so termination is
fuel-independent: the assign-before-recurse registration of `a`'s new id in
`duplicated_refs` makes `b`'s visit of `a` resolve without recursing), the run
on `a` terminates successfully, inserts exactly one new `Document` collab for
`a` (under the first fresh id) and one for `b` (under the second fresh id),
and rewrites `a`'s mention to `b`'s new id and `b`'s mention to `a`'s new
id. -/
theorem C4_cycle_termination (f : Nat) (a b blkA blkB : String)
    (metaA metaB : PublishViewMetaData) (ws dv wo : String) (uid ts : Int)
    (dwl : List (String × List String)) (hab : a ≠ b) :
    (dup_run (cycleEnv a b blkA blkB metaA metaB ws dv wo uid ts dwl) (f + 2)
      a CollabType.Document).1 = Except.ok () ∧
    docInserts ((dup_run (cycleEnv a b blkA blkB metaA metaB ws dv wo uid ts
      dwl) (f + 2) a CollabType.Document).2).trace =
      [(freshId 1, cycleDoc blkB (freshId 0)),
       (freshId 0, cycleDoc blkA (freshId 1))] ∧
    ((dup_run (cycleEnv a b blkA blkB metaA metaB ws dv wo uid ts dwl) (f + 2)
      a CollabType.Document).2).duplicated_refs =
      [(a, some (freshId 0)), (b, some (freshId 1))] := by
  have hba := Ne.symm hab
  refine ⟨?_, ?_, ?_⟩ <;>
  simp [dup_run, deep_copy, deep_copy_txn, deep_copy_doc_txn,
    deep_copy_doc_pages, processBlocks, processBlockData, processDeltaArr,
    processDeltaElem, copyPageSlot, deep_copy_doc_databases, insertCollab,
    insertRef, pushViewToAdd, genFresh, emitBroadcast, bindR, cycleEnv,
    cycleDoc, mentionBlock, mentionElem, Json.get, Json.asStr, Json.setKey,
    lookupA, insertA, updateA, initState, new_folder_view, docInserts, hab,
    hba, rewriteTextVal]

/-- Witness for C4 at concrete ids. -/
theorem C4_cycle_termination_witness :
    (dup_run (cycleEnv "a" "b" "ba" "bb" dbMetaC2 dbMetaC2 "ws" "dv" "wo" 1 5
      []) 2 "a" CollabType.Document).1 = Except.ok () ∧
    docInserts ((dup_run (cycleEnv "a" "b" "ba" "bb" dbMetaC2 dbMetaC2 "ws"
      "dv" "wo" 1 5 []) 2 "a" CollabType.Document).2).trace =
      [(freshId 1, cycleDoc "bb" (freshId 0)),
       (freshId 0, cycleDoc "ba" (freshId 1))] ∧
    ((dup_run (cycleEnv "a" "b" "ba" "bb" dbMetaC2 dbMetaC2 "ws" "dv" "wo" 1 5
      []) 2 "a" CollabType.Document).2).duplicated_refs =
      [("a", some (freshId 0)), ("b", some (freshId 1))] :=
  C4_cycle_termination 0 "a" "b" "ba" "bb" dbMetaC2 dbMetaC2 "ws" "dv" "wo" 1
    5 [] (by decide)
